import Mathlib

/-!
Verification of the luxdb core against its specification.

The development shallowly embeds the Python sources under `src/luxdb`
(`knn_store.py`, `index.py`, `commands.py`, `connection.py`, `server.py`,
`client.py`).  Pure functions become Lean functions; the mutable store is
threaded explicitly (every operation returns its result together with the
updated store, which also persists partial mutations on the error path,
as raising in Python does).  Exceptions become `Except` values.

The ANN library (hnswlib) and the cryptography library are external
collaborators; the specification (sections 4.1 and 4.3) documents their
contracts and these are modelled from the spec, as are the few wrapper
methods of `Index` (`read_from_path`, `write_to_path`, `get_items`,
`get_ids`, and the async reader/writer lock) that the current revision's
`knn_store.py` calls but whose definitions are not part of the snapshot.
-/

namespace LuxDB

/-- Exceptions of the embedded program.  `knn` wraps the domain errors of
`exceptions.py` (subclasses of `KNNBaseException`); the other constructors
stand for built-in Python exceptions raised by the external libraries or
by the interpreter itself. -/
inductive KNNExc where
  | indexAlreadyExists (name : String)
  | indexDoesNotExist (name : String)
  | unknownSpace (space : String)
  | notACommand
  | indexNotInitialized (name : String)
deriving DecidableEq, Repr

inductive PyExc where
  | knn (e : KNNExc)
  | runtimeError (msg : String)
  | typeError (msg : String)
  | keyError (key : String)
deriving DecidableEq, Repr

/-- Modelled from the spec (§4.3): the state of one hnswlib index.  The
ANN search algorithm itself is out of scope (spec §1); vectors are rows
of integers and the stored rows keep their labels.  `deleted` records
labels passed to `mark_deleted` (a logical flag, spec §9). -/
structure HnswIndex where
  space : String
  dim : Nat
  M : Nat
  ef_construction : Nat
  ef : Nat
  max_elements : Nat
  items : List (Int × List Int)
  deleted : List Int
deriving DecidableEq, Repr

/-- Modelled from the spec: `hnswlib.Index(space=space, dim=dim)` — a fresh,
uninitialized index: `M == 0`, no capacity, no items; `ef` starts at the
library default (spec §8 scenario 1: typically 10). -/
def HnswIndex.new (space : String) (dim : Nat) : HnswIndex :=
  { space := space, dim := dim, M := 0, ef_construction := 0, ef := 10,
    max_elements := 0, items := [], deleted := [] }

/-- Modelled from the spec (§4.3): `init_index` sets the runtime parameters
and allocates the graph; it fails if the index is already initialized. -/
def HnswIndex.init_index (h : HnswIndex) (max_elements : Nat)
    (ef_construction : Nat := 200) (M : Nat := 16) : Except PyExc HnswIndex :=
  if h.M ≠ 0 then .error (.runtimeError "the index is already initialized")
  else .ok { h with max_elements := max_elements,
                    ef_construction := ef_construction, M := M }

/-- Modelled from the spec (§4.3): `add_items` inserts the rows with their
integer labels; it fails on a shape mismatch, a dimension mismatch, more
rows than remaining capacity, or an uninitialized index.  The latter two
surface as generic runtime errors in the source (spec §7). -/
def HnswIndex.add_items (h : HnswIndex) (data : List (List Int))
    (ids : List Int) : Except PyExc HnswIndex :=
  if h.M = 0 then .error (.runtimeError "index not initialized")
  else if data.length ≠ ids.length then
    .error (.runtimeError "wrong shape of data and ids")
  else if data.any (fun row => row.length ≠ h.dim) then
    .error (.runtimeError "dimension mismatch")
  else if h.items.length + data.length > h.max_elements then
    .error (.runtimeError "capacity exceeded")
  else .ok { h with items := h.items ++ ids.zip data }

/-- Modelled from the spec (§4.3): `set_ef` sets the query breadth; fails on
an uninitialized index. -/
def HnswIndex.set_ef (h : HnswIndex) (new_ef : Nat) : Except PyExc HnswIndex :=
  if h.M = 0 then .error (.runtimeError "index not initialized")
  else .ok { h with ef := new_ef }

/-- Modelled from the spec (§4.3): `resize_index` changes the capacity and
preserves the stored items. -/
def HnswIndex.resize_index (h : HnswIndex) (new_size : Nat) : HnswIndex :=
  { h with max_elements := new_size }

/-- Modelled from the spec (§4.3, §9): `mark_deleted` is a logical delete —
the label is excluded from future query results, capacity and element
count do not change; an unknown label fails. -/
def HnswIndex.mark_deleted (h : HnswIndex) (label : Int) : Except PyExc HnswIndex :=
  if h.items.all (fun p => p.1 ≠ label) then
    .error (.runtimeError "label not found")
  else .ok { h with deleted := label :: h.deleted }

def HnswIndex.lookupItem (h : HnswIndex) (label : Int) : Option (List Int) :=
  (h.items.find? (fun p => p.1 = label)).map Prod.snd

/-- Modelled from the spec (§4.3): `get_items` returns the row vector of
every requested label and fails on an unknown label. -/
def HnswIndex.get_items (h : HnswIndex) (ids : List Int) :
    Except PyExc (List (List Int)) :=
  ids.mapM (fun i =>
    match h.lookupItem i with
    | some row => .ok row
    | none => .error (.runtimeError "label not found"))

/-- Modelled from the spec (§4.3): `get_ids` returns all live labels, that
is the labels of the stored rows that were not marked deleted. -/
def HnswIndex.get_ids (h : HnswIndex) : List Int :=
  (h.items.map Prod.fst).filter (fun l => !(h.deleted.contains l))

def HnswIndex.get_max_elements (h : HnswIndex) : Nat := h.max_elements

def HnswIndex.get_current_count (h : HnswIndex) : Nat := h.items.length

/-- The wrapper of `index.py` around one hnswlib index, together with the
state of its per-index lock and of its on-disk snapshot.  The lock is the
reader/writer lock of spec §4.4 (the async revision whose definition is
not part of the snapshot), seen from the sequential execution of one
operation: `writeLocked` is whether the writer side is held and `readers`
counts the readers inside the critical section.  `snap` is the last
snapshot written by `write_to_path` (`<uuid>.bin`, spec §4.6). -/
structure Index where
  index : HnswIndex
  snap : Option HnswIndex
  writeLocked : Bool
  readers : Nat
deriving DecidableEq, Repr

/-- `Index.__init__`: wraps a fresh hnswlib index; the lock starts free and
no snapshot exists yet. -/
def Index.new (h : HnswIndex) : Index :=
  { index := h, snap := none, writeLocked := false, readers := 0 }

/-- Modelled from the spec (§4.6): `write_to_path` writes the opaque binary
snapshot of the index to `<uuid>.bin`. -/
def Index.write_to_path (i : Index) : Index :=
  { i with snap := some i.index }

/-- Modelled from the spec (§4.5): `read_from_path` lazily loads the
snapshot when the in-memory ANN payload is absent.  Within one session of
this model the payload is always present, so the load is the identity. -/
def Index.read_from_path (i : Index) : Index := i

/-- The registry map, `self.root['indexes']`: an association list from
names to wrappers with unique keys, in insertion order. -/
def Registry := List (String × Index)
deriving DecidableEq

def lookupIdx : List (String × Index) → String → Option Index
  | [], _ => none
  | (k, v) :: rest, name => if k = name then some v else lookupIdx rest name

/-- Dictionary assignment: replace the binding if the key is present,
append it otherwise. -/
def setIdx : List (String × Index) → String → Index → List (String × Index)
  | [], name, ix => [(name, ix)]
  | (k, v) :: rest, name, ix =>
    if k = name then (name, ix) :: rest else (k, v) :: setIdx rest name ix

/-- Dictionary deletion (`del d[name]`). -/
def removeIdx : List (String × Index) → String → List (String × Index)
  | [], _ => []
  | (k, v) :: rest, name => if k = name then rest else (k, v) :: removeIdx rest name

/-- `KNNStore`: the registry plus the number of committed manifest
transactions (`self.transaction.commit()` calls). -/
structure KNNStore where
  indexes : List (String × Index)
  commits : Nat
deriving DecidableEq, Repr

/-- `KNNStore()` in memory: the registry starts empty. -/
def KNNStore.empty : KNNStore := { indexes := [], commits := 0 }

@[simp] theorem lookupIdx_nil (name : String) : lookupIdx [] name = none := rfl

@[simp] theorem lookupIdx_cons (k : String) (v : Index)
    (rest : List (String × Index)) (name : String) :
    lookupIdx ((k, v) :: rest) name =
      if k = name then some v else lookupIdx rest name := rfl

theorem lookupIdx_setIdx_self (l : List (String × Index)) (name : String)
    (ix : Index) : lookupIdx (setIdx l name ix) name = some ix := by
  induction l with
  | nil => simp [setIdx]
  | cons p rest ih =>
    obtain ⟨k, v⟩ := p
    by_cases h : k = name <;> simp [setIdx, h, ih]

theorem lookupIdx_setIdx_other (l : List (String × Index)) (name n : String)
    (ix : Index) (h : n ≠ name) :
    lookupIdx (setIdx l name ix) n = lookupIdx l n := by
  induction l with
  | nil =>
    have h' : ¬ name = n := fun hc => h hc.symm
    simp [setIdx, h']
  | cons p rest ih =>
    obtain ⟨k, v⟩ := p
    by_cases hk : k = name
    · subst hk
      have h' : ¬ k = n := fun hc => h hc.symm
      simp [setIdx, h']
    · simp only [setIdx, if_neg hk, lookupIdx_cons, ih]

/-- `KNNStore.get_index`: look the name up in the registry, raising
`IndexDoesNotExistException` when missing. -/
def KNNStore.get_index (s : KNNStore) (name : String) : Except PyExc Index :=
  match lookupIdx s.indexes name with
  | some ix => .ok ix
  | none => .error (.knn (.indexDoesNotExist name))

/-- `KNNStore._index_for_write` applied to a body: acquire the write lock,
lazily load the snapshot, raise `IndexNotInitializedException` when
`M == 0` (this raise happens BEFORE the try/finally, so on that path the
lock stays held and no snapshot is written), then run the body; the
finally clause writes the snapshot and releases the lock whether or not
the body raised.  Every caller of `_index_for_write` in `knn_store.py`
commits the manifest transaction after a successful body, so the commit
counter is incremented on the success path here.  The body returns its
value together with the mutated hnswlib index. -/
def withWrite {α : Type} (s : KNNStore) (name : String)
    (body : HnswIndex → Except PyExc (α × HnswIndex)) :
    Except PyExc α × KNNStore :=
  match lookupIdx s.indexes name with
  | none => (.error (.knn (.indexDoesNotExist name)), s)
  | some ix =>
    let ix1 := { ix with writeLocked := true }.read_from_path
    if ix1.index.M = 0 then
      (.error (.knn (.indexNotInitialized name)),
       { s with indexes := setIdx s.indexes name ix1 })
    else
      match body ix1.index with
      | .ok (a, h') =>
        let ix2 := { ix1 with index := h' }.write_to_path
        (.ok a,
         { s with indexes := setIdx s.indexes name { ix2 with writeLocked := false },
                  commits := s.commits + 1 })
      | .error e =>
        let ix2 := ix1.write_to_path
        (.error e,
         { s with indexes := setIdx s.indexes name { ix2 with writeLocked := false } })

/-- `KNNStore._index_for_init` applied to a body: like `_index_for_write`
but without the `M == 0` check; used only by `init_index`, which commits
after a successful body. -/
def withInit {α : Type} (s : KNNStore) (name : String)
    (body : HnswIndex → Except PyExc (α × HnswIndex)) :
    Except PyExc α × KNNStore :=
  match lookupIdx s.indexes name with
  | none => (.error (.knn (.indexDoesNotExist name)), s)
  | some ix =>
    let ix1 := { ix with writeLocked := true }
    match body ix1.index with
    | .ok (a, h') =>
      let ix2 := { ix1 with index := h' }.write_to_path
      (.ok a,
       { s with indexes := setIdx s.indexes name { ix2 with writeLocked := false },
                commits := s.commits + 1 })
    | .error e =>
      let ix2 := ix1.write_to_path
      (.error e,
       { s with indexes := setIdx s.indexes name { ix2 with writeLocked := false } })

/-- `KNNStore._index_for_read` applied to a body: acquire the read side of
the lock, lazily load the snapshot, raise `IndexNotInitializedException`
when `M == 0` (again before the try/finally, leaving the reader count
incremented on that path), run the read-only body, and release the read
lock in the finally clause. -/
def withRead {α : Type} (s : KNNStore) (name : String)
    (body : HnswIndex → Except PyExc α) :
    Except PyExc α × KNNStore :=
  match lookupIdx s.indexes name with
  | none => (.error (.knn (.indexDoesNotExist name)), s)
  | some ix =>
    let ix1 := { ix with readers := ix.readers + 1 }.read_from_path
    if ix1.index.M = 0 then
      (.error (.knn (.indexNotInitialized name)),
       { s with indexes := setIdx s.indexes name ix1 })
    else
      (body ix1.index,
       { s with indexes := setIdx s.indexes name { ix1 with readers := ix1.readers - 1 } })

/-- `KNNStore.index_exists`. -/
def KNNStore.index_exists (s : KNNStore) (name : String) : Bool :=
  (lookupIdx s.indexes name).isSome

/-- `KNNStore.create_index`: the space is validated first, then the name;
on success a fresh uninitialized wrapper is stored under the name and the
registry transaction is committed. -/
def ALLOWED_SPACES : List String := ["l2", "ip", "cosine"]

def KNNStore.create_index (s : KNNStore) (name space : String) (dim : Nat) :
    Except PyExc Bool × KNNStore :=
  if ¬ ALLOWED_SPACES.contains space then
    (.error (.knn (.unknownSpace space)), s)
  else if (lookupIdx s.indexes name).isSome then
    (.error (.knn (.indexAlreadyExists name)), s)
  else
    (.ok true,
     { s with indexes := setIdx s.indexes name (Index.new (HnswIndex.new space dim)),
              commits := s.commits + 1 })

/-- `KNNStore.init_index`. -/
def KNNStore.init_index (s : KNNStore) (name : String) (max_elements : Nat)
    (ef_construction : Nat := 200) (M : Nat := 16) :
    Except PyExc Unit × KNNStore :=
  withInit s name (fun h =>
    (h.init_index max_elements ef_construction M).map (fun h' => ((), h')))

/-- `KNNStore.delete_index`: `del self.root['indexes'][name]` — a plain
dictionary deletion, raising the interpreter's `KeyError` when the name
is absent — followed by a commit. -/
def KNNStore.delete_index (s : KNNStore) (name : String) :
    Except PyExc Unit × KNNStore :=
  match lookupIdx s.indexes name with
  | none => (.error (.keyError name), s)
  | some _ =>
    (.ok (),
     { s with indexes := removeIdx s.indexes name, commits := s.commits + 1 })

/-- `KNNStore.add_items`. -/
def KNNStore.add_items (s : KNNStore) (name : String)
    (data : List (List Int)) (ids : List Int) :
    Except PyExc Unit × KNNStore :=
  withWrite s name (fun h => (h.add_items data ids).map (fun h' => ((), h')))

/-- `KNNStore.set_ef`. -/
def KNNStore.set_ef (s : KNNStore) (name : String) (new_ef : Nat) :
    Except PyExc Unit × KNNStore :=
  withWrite s name (fun h => (h.set_ef new_ef).map (fun h' => ((), h')))

/-- `KNNStore.get_ef`. -/
def KNNStore.get_ef (s : KNNStore) (name : String) :
    Except PyExc Nat × KNNStore :=
  withRead s name (fun h => .ok h.ef)

/-- `KNNStore.get_ef_construction`. -/
def KNNStore.get_ef_construction (s : KNNStore) (name : String) :
    Except PyExc Nat × KNNStore :=
  withRead s name (fun h => .ok h.ef_construction)

/-- The k-NN search result, kept symbolic: the search algorithm is out of
the specification's scope (spec §1), so the result record only records
the query that was run. -/
structure KnnQueryResult where
  vector : List (List Int)
  k : Nat
deriving DecidableEq, Repr

/-- `KNNStore.query_index`: a read operation running the (symbolic) search. -/
def KNNStore.query_index (s : KNNStore) (name : String)
    (vector : List (List Int)) (k : Nat := 1) :
    Except PyExc KnnQueryResult × KNNStore :=
  withRead s name (fun _ => .ok { vector := vector, k := k })

/-- `KNNStore.delete_item`: a write operation marking the label deleted. -/
def KNNStore.delete_item (s : KNNStore) (name : String) (label : Int) :
    Except PyExc Unit × KNNStore :=
  withWrite s name (fun h => (h.mark_deleted label).map (fun h' => ((), h')))

/-- `KNNStore.resize_index`. -/
def KNNStore.resize_index (s : KNNStore) (name : String) (new_size : Nat) :
    Except PyExc Unit × KNNStore :=
  withWrite s name (fun h => .ok ((), h.resize_index new_size))

/-- `KNNStore.max_elements`. -/
def KNNStore.max_elements (s : KNNStore) (name : String) :
    Except PyExc Nat × KNNStore :=
  withRead s name (fun h => .ok h.get_max_elements)

/-- `KNNStore.count`. -/
def KNNStore.count (s : KNNStore) (name : String) :
    Except PyExc Nat × KNNStore :=
  withRead s name (fun h => .ok h.get_current_count)

/-- The record returned by `KNNStore.info`. -/
structure InfoRecord where
  space : String
  dim : Nat
  M : Nat
  ef_construction : Nat
  max_elements : Nat
  element_count : Nat
  ef : Nat
deriving DecidableEq, Repr

/-- `KNNStore.info`. -/
def KNNStore.info (s : KNNStore) (name : String) :
    Except PyExc InfoRecord × KNNStore :=
  withRead s name (fun h =>
    .ok { space := h.space, dim := h.dim, M := h.M,
          ef_construction := h.ef_construction,
          max_elements := h.get_max_elements,
          element_count := h.get_current_count, ef := h.ef })

/-- `KNNStore.get_items`: inside the read context, an empty index returns
the empty list for any requested ids; otherwise the wrapper is asked for
the rows. -/
def KNNStore.get_items (s : KNNStore) (name : String) (ids : List Int) :
    Except PyExc (List (List Int)) × KNNStore :=
  withRead s name (fun h =>
    if h.get_current_count = 0 then .ok [] else h.get_items ids)

/-- `KNNStore.get_ids`: inside the read context, an empty index returns the
empty list; otherwise all live labels. -/
def KNNStore.get_ids (s : KNNStore) (name : String) :
    Except PyExc (List Int) × KNNStore :=
  withRead s name (fun h =>
    if h.get_current_count = 0 then .ok [] else .ok h.get_ids)

/-- `KNNStore.get_indexes`. -/
def KNNStore.get_indexes (s : KNNStore) : List String :=
  s.indexes.map Prod.fst

/-! ## Commands and dispatch (`commands.py`) -/

/-- `CommandState` of `commands.py`. -/
inductive CommandState where
  | CREATED | SENT | RECEIVED | EXECUTED | FAILED | SUCCEEDED
deriving DecidableEq, Repr

/-- The command records of `commands.py` (one constructor per
`Command` subclass, with its keyword arguments). -/
inductive Cmd where
  | connect (payload : List Nat)
  | indexExists (name : String)
  | createIndex (name space : String) (dim : Nat)
  | initIndex (name : String) (max_elements ef_construction M : Nat)
  | deleteIndex (name : String)
  | addItems (name : String) (data : List (List Int)) (ids : List Int)
  | setEF (name : String) (new_ef : Nat)
  | getEF (name : String)
  | getEFConstruction (name : String)
  | queryIndex (name : String) (vector : List (List Int)) (k : Nat)
  | deleteItem (name : String) (label : Int)
  | resizeIndex (name : String) (new_size : Nat)
  | countCmd (name : String)
  | maxElements (name : String)
  | info (name : String)
  | getIndexes
  | getItems (name : String) (ids : List Int)
  | getIds (name : String)
deriving DecidableEq, Repr

/-- The dynamically typed values returned by commands. -/
inductive Value where
  | vbool (b : Bool)
  | vnat (n : Nat)
  | vnone
  | vbytes (bs : List Nat)
  | vids (l : List Int)
  | vrows (r : List (List Int))
  | vquery (q : KnnQueryResult)
  | vinfo (i : InfoRecord)
  | vnames (l : List String)
deriving DecidableEq, Repr

/-- `Command.execute_command` of every subclass: dispatch the command tag
to the matching store operation, wrapping the return value. -/
def executeCommand (c : Cmd) (s : KNNStore) : Except PyExc Value × KNNStore :=
  match c with
  | .connect payload => (.ok (.vbytes payload), s)
  | .indexExists name => (.ok (.vbool (s.index_exists name)), s)
  | .createIndex name space dim =>
    let (r, s') := s.create_index name space dim
    (r.map .vbool, s')
  | .initIndex name me ec M =>
    let (r, s') := s.init_index name me ec M
    (r.map (fun _ => .vnone), s')
  | .deleteIndex name =>
    let (r, s') := s.delete_index name
    (r.map (fun _ => .vnone), s')
  | .addItems name data ids =>
    let (r, s') := s.add_items name data ids
    (r.map (fun _ => .vnone), s')
  | .setEF name new_ef =>
    let (r, s') := s.set_ef name new_ef
    (r.map (fun _ => .vnone), s')
  | .getEF name =>
    let (r, s') := s.get_ef name
    (r.map .vnat, s')
  | .getEFConstruction name =>
    let (r, s') := s.get_ef_construction name
    (r.map .vnat, s')
  | .queryIndex name vector k =>
    let (r, s') := s.query_index name vector k
    (r.map .vquery, s')
  | .deleteItem name label =>
    let (r, s') := s.delete_item name label
    (r.map (fun _ => .vnone), s')
  | .resizeIndex name new_size =>
    let (r, s') := s.resize_index name new_size
    (r.map (fun _ => .vnone), s')
  | .countCmd name =>
    let (r, s') := s.count name
    (r.map .vnat, s')
  | .maxElements name =>
    let (r, s') := s.max_elements name
    (r.map .vnat, s')
  | .info name =>
    let (r, s') := s.info name
    (r.map .vinfo, s')
  | .getIndexes => (.ok (.vnames s.get_indexes), s)
  | .getItems name ids =>
    let (r, s') := s.get_items name ids
    (r.map .vrows, s')
  | .getIds name =>
    let (r, s') := s.get_ids name
    (r.map .vids, s')

instance exceptDecEq {ε α : Type} [DecidableEq ε] [DecidableEq α] :
    DecidableEq (Except ε α) := fun a b =>
  match a, b with
  | .ok x, .ok y =>
    if h : x = y then .isTrue (by rw [h])
    else .isFalse (fun hc => h (by cases hc; rfl))
  | .error x, .error y =>
    if h : x = y then .isTrue (by rw [h])
    else .isFalse (fun hc => h (by cases hc; rfl))
  | .ok _, .error _ => .isFalse (fun hc => Except.noConfusion hc)
  | .error _, .ok _ => .isFalse (fun hc => Except.noConfusion hc)

/-- The `Result` record: `data` is either a plain value or the exception
object stored by a failed command. -/
structure Result where
  data : Except PyExc Value
  state : CommandState
deriving DecidableEq, Repr

/-- `Result.get_value`: `raise_error` re-raises the stored exception when
the state is FAILED — and when the stored data is not an exception (for
example `None`), `raise data` itself raises the interpreter's
`TypeError`; otherwise the data is returned. -/
def Result.get_value (r : Result) : Except PyExc Value :=
  if r.state = .FAILED then
    match r.data with
    | .error e => .error e
    | .ok _ => .error (.typeError "exceptions must derive from BaseException")
  else r.data

/-- `Command.execute`: run `execute_command` under try/except.  A
`KNNBaseException` and any other exception alike are caught and stored,
giving a FAILED result; a normal return gives a SUCCEEDED result.  No
exception propagates out. -/
def Command.execute (c : Cmd) (s : KNNStore) : Result × KNNStore :=
  match executeCommand c s with
  | (.ok v, s') => ({ data := .ok v, state := .SUCCEEDED }, s')
  | (.error e, s') => ({ data := .error e, state := .FAILED }, s')

/-- The per-connection loop of `Server.connection`: commands are executed
and answered in arrival order until the peer closes; a FAILED result does
not end the loop. -/
def connectionReplies (s : KNNStore) : List Cmd → List Result × KNNStore
  | [] => ([], s)
  | c :: rest =>
    ((Command.execute c s).1 ::
       (connectionReplies (Command.execute c s).2 rest).1,
     (connectionReplies (Command.execute c s).2 rest).2)

/-! ## Codec and connection helpers (`connection.py`)

The cryptography library (PBKDF2-HMAC-SHA256 plus the Fernet token
scheme) is an external collaborator; spec §4.1 states its contract and it
is modelled symbolically here: key derivation is an injective map from
secrets to keys and a token records the key it was encrypted under, its
timestamp and its plaintext.  Decryption succeeds exactly when the key
matches and the token has not outlived the TTL, failing with
`InvalidToken` otherwise. -/

/-- `FERNET_TTL`: decrypt time-to-live in seconds, default 60. -/
def FERNET_TTL : Nat := 60

/-- `INT_LENGTH`: the size field of a frame is 8 bytes. -/
def INT_LENGTH : Nat := 8

/-- Modelled from the spec (§4.1): the key `gen_key` derives from a human
secret via PBKDF2, kept symbolic.  Distinct secrets derive distinct keys. -/
structure FernetKey where
  secret : String
deriving DecidableEq, Repr

def gen_key (secret : String) : FernetKey := { secret := secret }

/-- The objects that travel over the wire (`pickle.dumps` arguments):
command records from client to server, result records back. -/
inductive WireObj where
  | cmd (c : Cmd)
  | result (r : Result)
deriving DecidableEq, Repr

/-- Modelled from the spec (§4.1): an authenticated-encryption token with
a timestamp field. -/
structure FernetToken where
  key : FernetKey
  timestamp : Nat
  plaintext : WireObj
deriving DecidableEq, Repr

inductive CryptoErr where
  | invalidToken
  | unknownObject
deriving DecidableEq, Repr

/-- `pack_obj`: pickle the object and encrypt it under the secret-derived
key (producing a token stamped with the send time). -/
def pack_obj (obj : WireObj) (secret : FernetKey) (now : Nat) : FernetToken :=
  { key := secret, timestamp := now, plaintext := obj }

/-- Modelled from the spec (§4.1): Fernet decryption with a TTL — fails
with `InvalidToken` on a wrong key or an expired timestamp, otherwise
yields the plaintext. -/
def fernetDecrypt (tok : FernetToken) (secret : FernetKey) (ttl : Nat)
    (now : Nat) : Except CryptoErr WireObj :=
  if tok.key ≠ secret then .error .invalidToken
  else if tok.timestamp + ttl < now then .error .invalidToken
  else .ok tok.plaintext

/-- `receive_obj` above the frame layer: a frame is either the close
sentinel (`none`, size 0) or an encrypted token; a sentinel yields `None`
and a token is decrypted with the configured TTL and unpickled. -/
def receive_obj (frame : Option FernetToken) (secret : FernetKey)
    (now : Nat) : Except CryptoErr (Option WireObj) :=
  match frame with
  | none => .ok none
  | some tok => (fernetDecrypt tok secret FERNET_TTL now).map some

/-! ### Byte-level framing (`send_obj` / `receive_obj` / `send_close`)

The wire layout itself is byte-exact: `size.to_bytes(8, 'big')` followed
by the payload; `readexactly(8)` then `readexactly(size)`. -/

/-- `n.to_bytes(len, 'big')`: big-endian, most significant byte first. -/
def toBytesBE : Nat → Nat → List Nat
  | 0, _ => []
  | k + 1, n => toBytesBE k (n / 256) ++ [n % 256]

/-- `int.from_bytes(bs, 'big')`. -/
def fromBytesBE (bs : List Nat) : Nat :=
  bs.foldl (fun a b => a * 256 + b) 0

/-- The bytes `send_obj` writes for an encrypted payload: the 8-byte
big-endian length, then exactly the payload. -/
def send_obj_bytes (payload : List Nat) : List Nat :=
  toBytesBE INT_LENGTH payload.length ++ payload

/-- The outcome of the receiving side of the framing layer: reading the
frame at the head of the stream yields either a protocol failure
(stream ended mid-frame), or the close sentinel together with the
untouched remainder, or the payload and the remainder. -/
inductive FrameRead where
  | protocolError
  | closeSentinel (rest : List Nat)
  | payload (data : List Nat) (rest : List Nat)
deriving DecidableEq, Repr

/-- `receive_obj`'s framing: read exactly 8 bytes, interpret them
big-endian; a length of 0 returns end-of-stream without touching the
payload bytes; otherwise read exactly that many payload bytes. -/
def receive_frame (stream : List Nat) : FrameRead :=
  if stream.length < INT_LENGTH then .protocolError
  else
    let size := fromBytesBE (stream.take INT_LENGTH)
    let rest := stream.drop INT_LENGTH
    if size = 0 then .closeSentinel rest
    else if rest.length < size then .protocolError
    else .payload (rest.take size) (rest.drop size)

/-- `send_close`: write a zero length field, then close the transport.
The first component is the bytes written, the second records that the
writer was closed afterwards. -/
def send_close_bytes : List Nat × Bool :=
  (toBytesBE INT_LENGTH 0, true)

/-! ### Handshake (`server.py` / `client.py`) -/

/-- What the server does with one received frame
(`Server._next_command` followed by the dispatch in
`Server.connection`): on `InvalidToken` it sends the close sentinel,
closes the connection and sends no result; on a decrypted command it
executes it and sends the result; a close sentinel ends the loop. -/
structure ServerFrameOutcome where
  resultSent : Option Result
  sentCloseSentinel : Bool
  closedConnection : Bool
  store : KNNStore
deriving Repr

def serverHandleFrame (frame : FernetToken) (serverKey : FernetKey)
    (now : Nat) (s : KNNStore) : ServerFrameOutcome :=
  match fernetDecrypt frame serverKey FERNET_TTL now with
  | .error _ =>
    { resultSent := none, sentCloseSentinel := true,
      closedConnection := true, store := s }
  | .ok (.cmd c) =>
    let (r, s') := Command.execute c s
    { resultSent := some r, sentCloseSentinel := false,
      closedConnection := false, store := s' }
  | .ok (.result _) =>
    -- receive_command raises on a non-command object; the connection task
    -- dies without an answer.
    { resultSent := none, sentCloseSentinel := false,
      closedConnection := true, store := s }

/-- `hmac.compare_digest` on byte strings (constant-time equality). -/
def compare_digest (a b : List Nat) : Bool := a == b

/-- `receive_result`: a close sentinel (`receive_obj` returning `None`)
becomes `Result(None, FAILED)`; a result record is passed through; and an
`InvalidToken` from decryption propagates. -/
def receive_result (frame : Option FernetToken) (secret : FernetKey)
    (now : Nat) : Except CryptoErr Result :=
  match receive_obj frame secret now with
  | .error e => .error e
  | .ok none => .ok { data := .ok .vnone, state := .FAILED }
  | .ok (some (.result r)) => .ok r
  | .ok (some (.cmd _)) => .error .unknownObject

/-- The errors `Client.connect` can end in. -/
inductive ClientErr where
  | runtimeError (msg : String)
  | invalidToken
  | pyExc (e : PyExc)
deriving DecidableEq, Repr

/-- `Client.connect` composed with the server's handling of the first
frame: the client packs a `ConnectCommand` carrying a fresh token under
its own key; the server decrypts with its key and answers (or closes);
the client reads the reply, catching the `TypeError` that
`Result.get_value` raises on a `Result(None, FAILED)` by substituting the
empty byte string, and finally compares the echoed payload against the
token it sent, raising `RuntimeError` on mismatch. -/
def clientConnect (clientSecret serverSecret : String) (token : List Nat)
    (now : Nat) (s : KNNStore) : Except ClientErr Unit :=
  let ckey := gen_key clientSecret
  let skey := gen_key serverSecret
  let frame := pack_obj (.cmd (.connect token)) ckey now
  let outcome := serverHandleFrame frame skey now s
  let replyFrame : Option FernetToken :=
    match outcome.resultSent with
    | some r => some (pack_obj (.result r) skey now)
    | none => none
  match receive_result replyFrame ckey now with
  | .error .invalidToken => .error .invalidToken
  | .error .unknownObject => .error (.runtimeError "received unknown object")
  | .ok reply =>
    let echoed : Except PyExc (List Nat) :=
      match reply.get_value with
      | .ok (.vbytes bs) => .ok bs
      | .ok _ => .ok []
      | .error (.typeError _) => .ok []  -- the except TypeError branch: result = b''
      | .error e => .error e
    match echoed with
    | .error e => .error (.pyExc e)
    | .ok bs =>
      if compare_digest token bs then .ok ()
      else .error (.runtimeError "Connection failed, make sure your secret is correct")

/-! ## Operation histories

To state the history-quantified invariants (spec §3 I3 and §8), a run of
the store is a fold of commands over the empty store, instrumented with
two specification-level ghosts per name: whether the index currently
registered under the name has ever been successfully initialized, and how
many rows were successfully added to it.  The ghosts are reset when a
fresh index is created under the name. -/

def isOk {ε α : Type} : Except ε α → Bool
  | .ok _ => true
  | .error _ => false

structure TraceState where
  store : KNNStore
  everInit : String → Bool
  addedRows : String → Nat

def initialTrace : TraceState :=
  { store := KNNStore.empty, everInit := fun _ => false, addedRows := fun _ => 0 }

def stepTrace (t : TraceState) (c : Cmd) : TraceState :=
  let res := executeCommand c t.store
  let s' := res.2
  match c with
  | .createIndex name _ _ =>
    match res.1 with
    | .ok _ =>
      { store := s',
        everInit := fun n => if n = name then false else t.everInit n,
        addedRows := fun n => if n = name then 0 else t.addedRows n }
    | .error _ => { t with store := s' }
  | .initIndex name _ _ _ =>
    match res.1 with
    | .ok _ =>
      { store := s',
        everInit := fun n => if n = name then true else t.everInit n,
        addedRows := t.addedRows }
    | .error _ => { t with store := s' }
  | .addItems name data _ =>
    match res.1 with
    | .ok _ =>
      { store := s',
        everInit := t.everInit,
        addedRows := fun n => if n = name then t.addedRows n + data.length
                              else t.addedRows n }
    | .error _ => { t with store := s' }
  | _ => { t with store := s' }

def runTrace (cmds : List Cmd) : TraceState :=
  cmds.foldl stepTrace initialTrace

/-- Whether every `initIndex` command of a history carries a positive
graph degree `M` (as the client-side default `M = 16` does).  The value
`M = 0` would be forwarded verbatim to the external library, whose
behaviour for it is not specified. -/
def initsPositive : List Cmd → Bool
  | [] => true
  | .initIndex _ _ _ M :: rest => (decide (1 ≤ M)) && initsPositive rest
  | _ :: rest => initsPositive rest

/-- The invariant carried through a run: registry keys are unique, and
for every registered index, `M == 0` holds exactly when the index was
never initialized, and its element count equals the number of rows
successfully added to it. -/
def TraceInv (t : TraceState) : Prop :=
  (t.store.indexes.map Prod.fst).Nodup ∧
  ∀ name ix, lookupIdx t.store.indexes name = some ix →
    (ix.index.M = 0 ↔ t.everInit name = false) ∧
    ix.index.items.length = t.addedRows name

/-! ## Helper lemmas -/

theorem lookupIdx_eq_none_iff (l : List (String × Index)) (name : String) :
    lookupIdx l name = none ↔ name ∉ l.map Prod.fst := by
  induction l with
  | nil => simp
  | cons p rest ih =>
    obtain ⟨k, v⟩ := p
    by_cases h : k = name
    · subst h; simp
    · simp only [lookupIdx_cons, if_neg h, ih, List.map_cons, List.mem_cons,
        not_or]
      constructor
      · intro hn
        exact ⟨fun hc => h hc.symm, hn⟩
      · intro hn
        exact hn.2

theorem keys_setIdx_mem (l : List (String × Index)) (name : String)
    (ix0 ix : Index) (h : lookupIdx l name = some ix0) :
    (setIdx l name ix).map Prod.fst = l.map Prod.fst := by
  induction l with
  | nil => simp [lookupIdx] at h
  | cons p rest ih =>
    obtain ⟨k, v⟩ := p
    by_cases hk : k = name
    · subst hk; simp [setIdx]
    · simp only [lookupIdx_cons, if_neg hk] at h
      simp [setIdx, hk, ih h]

theorem keys_setIdx_new (l : List (String × Index)) (name : String)
    (ix : Index) (h : lookupIdx l name = none) :
    (setIdx l name ix).map Prod.fst = l.map Prod.fst ++ [name] := by
  induction l with
  | nil => simp [setIdx]
  | cons p rest ih =>
    obtain ⟨k, v⟩ := p
    by_cases hk : k = name
    · subst hk; simp at h
    · simp only [lookupIdx_cons, if_neg hk] at h
      simp [setIdx, hk, ih h]

theorem lookupIdx_removeIdx_other (l : List (String × Index)) (name n : String)
    (h : n ≠ name) : lookupIdx (removeIdx l name) n = lookupIdx l n := by
  induction l with
  | nil => simp [removeIdx]
  | cons p rest ih =>
    obtain ⟨k, v⟩ := p
    by_cases hk : k = name
    · subst hk
      have h' : ¬ k = n := fun hc => h hc.symm
      simp [removeIdx, h']
    · simp [removeIdx, hk, ih]

theorem keys_removeIdx_sublist (l : List (String × Index)) (name : String) :
    ((removeIdx l name).map Prod.fst).Sublist (l.map Prod.fst) := by
  induction l with
  | nil => simp [removeIdx]
  | cons p rest ih =>
    obtain ⟨k, v⟩ := p
    by_cases hk : k = name
    · subst hk
      simp only [removeIdx, if_pos rfl, List.map_cons]
      exact (List.sublist_cons_self _ _)
    · simpa [removeIdx, hk] using ih.cons₂ k

theorem lookupIdx_removeIdx_self (l : List (String × Index)) (name : String)
    (hd : (l.map Prod.fst).Nodup) :
    lookupIdx (removeIdx l name) name = none := by
  induction l with
  | nil => simp [removeIdx]
  | cons p rest ih =>
    obtain ⟨k, v⟩ := p
    simp only [List.map_cons, List.nodup_cons] at hd
    by_cases hk : k = name
    · subst hk
      simp only [removeIdx, if_pos rfl]
      rw [lookupIdx_eq_none_iff]
      exact hd.1
    · simp [removeIdx, hk, ih hd.2]

/-- The effect of `_index_for_write` on the registry: keys are unchanged,
and every index found afterwards was already registered before, with the
same hnswlib payload unless it is the named one and its payload was
transformed by a successful body. -/
theorem withWrite_lookup {α : Type} (s : KNNStore) (name : String)
    (body : HnswIndex → Except PyExc (α × HnswIndex)) (n : String)
    (ix' : Index)
    (h : lookupIdx (withWrite s name body).2.indexes n = some ix') :
    ∃ ix, lookupIdx s.indexes n = some ix ∧
      (ix'.index = ix.index ∨
       (n = name ∧ ∃ a, body ix.index = .ok (a, ix'.index))) := by
  unfold withWrite at h
  cases hl : lookupIdx s.indexes name with
  | none => rw [hl] at h; exact ⟨ix', h, Or.inl rfl⟩
  | some ix0 =>
    rw [hl] at h
    simp only [Index.read_from_path] at h
    by_cases hM : ix0.index.M = 0
    · simp only [if_pos hM] at h
      by_cases hn : n = name
      · subst hn
        rw [lookupIdx_setIdx_self] at h
        cases h
        exact ⟨ix0, hl, Or.inl rfl⟩
      · rw [lookupIdx_setIdx_other _ _ _ _ hn] at h
        exact ⟨ix', h, Or.inl rfl⟩
    · simp only [if_neg hM] at h
      cases hb : body ix0.index with
      | ok p =>
        obtain ⟨a, h'⟩ := p
        rw [hb] at h
        by_cases hn : n = name
        · subst hn
          rw [lookupIdx_setIdx_self] at h
          cases h
          exact ⟨ix0, hl, Or.inr ⟨rfl, a, by simpa using hb⟩⟩
        · rw [lookupIdx_setIdx_other _ _ _ _ hn] at h
          exact ⟨ix', h, Or.inl rfl⟩
      | error e =>
        rw [hb] at h
        by_cases hn : n = name
        · subst hn
          rw [lookupIdx_setIdx_self] at h
          cases h
          exact ⟨ix0, hl, Or.inl rfl⟩
        · rw [lookupIdx_setIdx_other _ _ _ _ hn] at h
          exact ⟨ix', h, Or.inl rfl⟩

theorem withWrite_keys {α : Type} (s : KNNStore) (name : String)
    (body : HnswIndex → Except PyExc (α × HnswIndex)) :
    (withWrite s name body).2.indexes.map Prod.fst =
      s.indexes.map Prod.fst := by
  unfold withWrite
  cases hl : lookupIdx s.indexes name with
  | none => rfl
  | some ix0 =>
    simp only [Index.read_from_path]
    by_cases hM : ix0.index.M = 0
    · simp only [if_pos hM]
      exact keys_setIdx_mem _ _ ix0 _ hl
    · simp only [if_neg hM]
      cases hb : body ix0.index with
      | ok p =>
        obtain ⟨a, h'⟩ := p
        exact keys_setIdx_mem _ _ ix0 _ hl
      | error e =>
        exact keys_setIdx_mem _ _ ix0 _ hl

theorem withInit_lookup {α : Type} (s : KNNStore) (name : String)
    (body : HnswIndex → Except PyExc (α × HnswIndex)) (n : String)
    (ix' : Index)
    (h : lookupIdx (withInit s name body).2.indexes n = some ix') :
    ∃ ix, lookupIdx s.indexes n = some ix ∧
      (ix'.index = ix.index ∨
       (n = name ∧ ∃ a, body ix.index = .ok (a, ix'.index))) := by
  unfold withInit at h
  cases hl : lookupIdx s.indexes name with
  | none => rw [hl] at h; exact ⟨ix', h, Or.inl rfl⟩
  | some ix0 =>
    rw [hl] at h
    simp only [Index.write_to_path] at h
    cases hb : body ix0.index with
    | ok p =>
      obtain ⟨a, h'⟩ := p
      rw [hb] at h
      by_cases hn : n = name
      · subst hn
        rw [lookupIdx_setIdx_self] at h
        cases h
        exact ⟨ix0, hl, Or.inr ⟨rfl, a, by simpa using hb⟩⟩
      · rw [lookupIdx_setIdx_other _ _ _ _ hn] at h
        exact ⟨ix', h, Or.inl rfl⟩
    | error e =>
      rw [hb] at h
      by_cases hn : n = name
      · subst hn
        rw [lookupIdx_setIdx_self] at h
        cases h
        exact ⟨ix0, hl, Or.inl rfl⟩
      · rw [lookupIdx_setIdx_other _ _ _ _ hn] at h
        exact ⟨ix', h, Or.inl rfl⟩

theorem withInit_keys {α : Type} (s : KNNStore) (name : String)
    (body : HnswIndex → Except PyExc (α × HnswIndex)) :
    (withInit s name body).2.indexes.map Prod.fst =
      s.indexes.map Prod.fst := by
  unfold withInit
  cases hl : lookupIdx s.indexes name with
  | none => rfl
  | some ix0 =>
    simp only [Index.write_to_path]
    cases hb : body ix0.index with
    | ok p =>
      obtain ⟨a, h'⟩ := p
      exact keys_setIdx_mem _ _ ix0 _ hl
    | error e =>
      exact keys_setIdx_mem _ _ ix0 _ hl

theorem withRead_lookup {α : Type} (s : KNNStore) (name : String)
    (body : HnswIndex → Except PyExc α) (n : String) (ix' : Index)
    (h : lookupIdx (withRead s name body).2.indexes n = some ix') :
    ∃ ix, lookupIdx s.indexes n = some ix ∧ ix'.index = ix.index := by
  unfold withRead at h
  cases hl : lookupIdx s.indexes name with
  | none => rw [hl] at h; exact ⟨ix', h, rfl⟩
  | some ix0 =>
    rw [hl] at h
    simp only [Index.read_from_path] at h
    by_cases hM : ix0.index.M = 0
    · simp only [if_pos hM] at h
      by_cases hn : n = name
      · subst hn
        rw [lookupIdx_setIdx_self] at h
        cases h
        exact ⟨ix0, hl, rfl⟩
      · rw [lookupIdx_setIdx_other _ _ _ _ hn] at h
        exact ⟨ix', h, rfl⟩
    · simp only [if_neg hM] at h
      by_cases hn : n = name
      · subst hn
        rw [lookupIdx_setIdx_self] at h
        cases h
        exact ⟨ix0, hl, rfl⟩
      · rw [lookupIdx_setIdx_other _ _ _ _ hn] at h
        exact ⟨ix', h, rfl⟩

theorem withRead_keys {α : Type} (s : KNNStore) (name : String)
    (body : HnswIndex → Except PyExc α) :
    (withRead s name body).2.indexes.map Prod.fst =
      s.indexes.map Prod.fst := by
  unfold withRead
  cases hl : lookupIdx s.indexes name with
  | none => rfl
  | some ix0 =>
    simp only [Index.read_from_path]
    by_cases hM : ix0.index.M = 0
    · simp only [if_pos hM]
      exact keys_setIdx_mem _ _ ix0 _ hl
    · simp only [if_neg hM]
      exact keys_setIdx_mem _ _ ix0 _ hl

theorem setIdx_self_id (l : List (String × Index)) (name : String)
    (ix : Index) (hl : lookupIdx l name = some ix) :
    setIdx l name ix = l := by
  induction l with
  | nil => simp [lookupIdx] at hl
  | cons p rest ih =>
    obtain ⟨k, v⟩ := p
    by_cases hk : k = name
    · subst hk
      rw [lookupIdx_cons, if_pos rfl] at hl
      cases hl
      simp [setIdx]
    · simp only [lookupIdx_cons, if_neg hk] at hl
      simp [setIdx, hk, ih hl]

/-! Branch characterizations of the three index contexts. -/

theorem withWrite_none {α : Type} (s : KNNStore) (name : String)
    (body : HnswIndex → Except PyExc (α × HnswIndex))
    (hl : lookupIdx s.indexes name = none) :
    withWrite s name body = (.error (.knn (.indexDoesNotExist name)), s) := by
  simp [withWrite, hl]

theorem withWrite_uninit {α : Type} (s : KNNStore) (name : String)
    (body : HnswIndex → Except PyExc (α × HnswIndex)) (ix : Index)
    (hl : lookupIdx s.indexes name = some ix) (hM : ix.index.M = 0) :
    withWrite s name body =
      (.error (.knn (.indexNotInitialized name)),
       { s with indexes := setIdx s.indexes name { ix with writeLocked := true } }) := by
  simp [withWrite, hl, Index.read_from_path, hM]

theorem withWrite_body_ok {α : Type} (s : KNNStore) (name : String)
    (body : HnswIndex → Except PyExc (α × HnswIndex)) (ix : Index)
    (a : α) (h' : HnswIndex)
    (hl : lookupIdx s.indexes name = some ix) (hM : ¬ ix.index.M = 0)
    (hb : body ix.index = .ok (a, h')) :
    withWrite s name body =
      (.ok a,
       { s with indexes := setIdx s.indexes name
                  { index := h', snap := some h', writeLocked := false,
                    readers := ix.readers },
                commits := s.commits + 1 }) := by
  simp [withWrite, hl, Index.read_from_path, Index.write_to_path, hM, hb]

theorem withWrite_body_err {α : Type} (s : KNNStore) (name : String)
    (body : HnswIndex → Except PyExc (α × HnswIndex)) (ix : Index)
    (e : PyExc)
    (hl : lookupIdx s.indexes name = some ix) (hM : ¬ ix.index.M = 0)
    (hb : body ix.index = .error e) :
    withWrite s name body =
      (.error e,
       { s with indexes := setIdx s.indexes name
                  { index := ix.index, snap := some ix.index,
                    writeLocked := false, readers := ix.readers } }) := by
  simp [withWrite, hl, Index.read_from_path, Index.write_to_path, hM, hb]

theorem withInit_none {α : Type} (s : KNNStore) (name : String)
    (body : HnswIndex → Except PyExc (α × HnswIndex))
    (hl : lookupIdx s.indexes name = none) :
    withInit s name body = (.error (.knn (.indexDoesNotExist name)), s) := by
  simp [withInit, hl]

theorem withInit_body_ok {α : Type} (s : KNNStore) (name : String)
    (body : HnswIndex → Except PyExc (α × HnswIndex)) (ix : Index)
    (a : α) (h' : HnswIndex)
    (hl : lookupIdx s.indexes name = some ix)
    (hb : body ix.index = .ok (a, h')) :
    withInit s name body =
      (.ok a,
       { s with indexes := setIdx s.indexes name
                  { index := h', snap := some h', writeLocked := false,
                    readers := ix.readers },
                commits := s.commits + 1 }) := by
  simp [withInit, hl, Index.write_to_path, hb]

theorem withInit_body_err {α : Type} (s : KNNStore) (name : String)
    (body : HnswIndex → Except PyExc (α × HnswIndex)) (ix : Index)
    (e : PyExc)
    (hl : lookupIdx s.indexes name = some ix)
    (hb : body ix.index = .error e) :
    withInit s name body =
      (.error e,
       { s with indexes := setIdx s.indexes name
                  { index := ix.index, snap := some ix.index,
                    writeLocked := false, readers := ix.readers } }) := by
  simp [withInit, hl, Index.write_to_path, hb]

theorem withRead_none {α : Type} (s : KNNStore) (name : String)
    (body : HnswIndex → Except PyExc α)
    (hl : lookupIdx s.indexes name = none) :
    withRead s name body = (.error (.knn (.indexDoesNotExist name)), s) := by
  simp [withRead, hl]

theorem withRead_uninit {α : Type} (s : KNNStore) (name : String)
    (body : HnswIndex → Except PyExc α) (ix : Index)
    (hl : lookupIdx s.indexes name = some ix) (hM : ix.index.M = 0) :
    withRead s name body =
      (.error (.knn (.indexNotInitialized name)),
       { s with indexes := setIdx s.indexes name { ix with readers := ix.readers + 1 } }) := by
  simp [withRead, hl, Index.read_from_path, hM]

theorem withRead_body {α : Type} (s : KNNStore) (name : String)
    (body : HnswIndex → Except PyExc α) (ix : Index)
    (hl : lookupIdx s.indexes name = some ix) (hM : ¬ ix.index.M = 0) :
    withRead s name body = (body ix.index, s) := by
  have hset : setIdx s.indexes name
      { index := ix.index, snap := ix.snap, writeLocked := ix.writeLocked,
        readers := ix.readers } = s.indexes :=
    setIdx_self_id s.indexes name ix hl
  simp [withRead, hl, Index.read_from_path, hM, hset]

theorem add_items_effect (h : HnswIndex) (data : List (List Int))
    (ids : List Int) (h' : HnswIndex)
    (he : h.add_items data ids = .ok h') :
    h'.M = h.M ∧ h'.items.length = h.items.length + data.length ∧
      h'.max_elements = h.max_elements := by
  unfold HnswIndex.add_items at he
  split at he
  · cases he
  · split at he
    · cases he
    · split at he
      · cases he
      · split at he
        · cases he
        · cases he
          rename_i hlen _ _
          have hl : data.length = ids.length := not_not.mp hlen
          refine ⟨rfl, ?_, rfl⟩
          simp only [List.length_append, List.length_zip, hl,
            Nat.min_self]

theorem set_ef_effect (h : HnswIndex) (new_ef : Nat) (h' : HnswIndex)
    (he : h.set_ef new_ef = .ok h') :
    h'.M = h.M ∧ h'.items = h.items ∧ h'.max_elements = h.max_elements := by
  unfold HnswIndex.set_ef at he
  split at he
  · cases he
  · cases he
    exact ⟨rfl, rfl, rfl⟩

theorem mark_deleted_effect (h : HnswIndex) (label : Int) (h' : HnswIndex)
    (he : h.mark_deleted label = .ok h') :
    h'.M = h.M ∧ h'.items = h.items ∧ h'.max_elements = h.max_elements := by
  unfold HnswIndex.mark_deleted at he
  split at he
  · cases he
  · cases he
    exact ⟨rfl, rfl, rfl⟩

theorem resize_effect (h : HnswIndex) (new_size : Nat) :
    (h.resize_index new_size).M = h.M ∧
      (h.resize_index new_size).items = h.items := by
  exact ⟨rfl, rfl⟩

theorem init_index_effect (h : HnswIndex) (me ec M : Nat) (h' : HnswIndex)
    (he : h.init_index me ec M = .ok h') :
    h.M = 0 ∧ h'.M = M ∧ h'.items = h.items := by
  unfold HnswIndex.init_index at he
  split at he
  · cases he
  · cases he
    rename_i h0
    exact ⟨not_not.mp h0, rfl, rfl⟩

/-! Equations connecting the dispatcher to the store operations. -/

theorem executeCommand_createIndex (s : KNNStore) (name space : String)
    (dim : Nat) :
    executeCommand (.createIndex name space dim) s =
      ((s.create_index name space dim).1.map Value.vbool,
       (s.create_index name space dim).2) := rfl

theorem executeCommand_initIndex (s : KNNStore) (name : String)
    (me ec M : Nat) :
    executeCommand (.initIndex name me ec M) s =
      ((s.init_index name me ec M).1.map (fun _ => Value.vnone),
       (s.init_index name me ec M).2) := rfl

theorem executeCommand_addItems (s : KNNStore) (name : String)
    (data : List (List Int)) (ids : List Int) :
    executeCommand (.addItems name data ids) s =
      ((s.add_items name data ids).1.map (fun _ => Value.vnone),
       (s.add_items name data ids).2) := rfl

theorem executeCommand_deleteIndex (s : KNNStore) (name : String) :
    executeCommand (.deleteIndex name) s =
      ((s.delete_index name).1.map (fun _ => Value.vnone),
       (s.delete_index name).2) := rfl

theorem executeCommand_setEF (s : KNNStore) (name : String) (new_ef : Nat) :
    executeCommand (.setEF name new_ef) s =
      ((s.set_ef name new_ef).1.map (fun _ => Value.vnone),
       (s.set_ef name new_ef).2) := rfl

theorem executeCommand_deleteItem (s : KNNStore) (name : String)
    (label : Int) :
    executeCommand (.deleteItem name label) s =
      ((s.delete_item name label).1.map (fun _ => Value.vnone),
       (s.delete_item name label).2) := rfl

theorem executeCommand_resizeIndex (s : KNNStore) (name : String)
    (new_size : Nat) :
    executeCommand (.resizeIndex name new_size) s =
      ((s.resize_index name new_size).1.map (fun _ => Value.vnone),
       (s.resize_index name new_size).2) := rfl

theorem isOk_map {ε α β : Type} (f : α → β) (x : Except ε α) :
    isOk (x.map f) = isOk x := by
  cases x <;> rfl

theorem map_unit_pair_ok {x : Except PyExc HnswIndex} {a : Unit}
    {h' : HnswIndex}
    (h : x.map (fun h0 => ((), h0)) = .ok (a, h')) : x = .ok h' := by
  cases x with
  | ok y =>
    simp only [Except.map] at h
    cases h
    rfl
  | error e => simp [Except.map] at h

/-- Characterization of `create_index`: the space check precedes the name
check, and a successful creation registers a fresh uninitialized wrapper
and commits. -/
theorem create_index_spec (s : KNNStore) (name space : String) (dim : Nat) :
    (¬ ALLOWED_SPACES.contains space →
      s.create_index name space dim = (.error (.knn (.unknownSpace space)), s)) ∧
    (ALLOWED_SPACES.contains space → (lookupIdx s.indexes name).isSome →
      s.create_index name space dim = (.error (.knn (.indexAlreadyExists name)), s)) ∧
    (ALLOWED_SPACES.contains space → lookupIdx s.indexes name = none →
      s.create_index name space dim =
        (.ok true,
         { s with indexes := setIdx s.indexes name (Index.new (HnswIndex.new space dim)),
                  commits := s.commits + 1 })) := by
  refine ⟨fun h1 => ?_, fun h1 h2 => ?_, fun h1 h2 => ?_⟩
  · have h1' : space ∉ ALLOWED_SPACES := by simpa using h1
    simp [KNNStore.create_index, h1']
  · have h1' : space ∈ ALLOWED_SPACES := by simpa using h1
    simp [KNNStore.create_index, h1', h2]
  · have h1' : space ∈ ALLOWED_SPACES := by simpa using h1
    simp [KNNStore.create_index, h1', h2]

theorem delete_index_none (s : KNNStore) (name : String)
    (hl : lookupIdx s.indexes name = none) :
    s.delete_index name = (.error (.keyError name), s) := by
  simp [KNNStore.delete_index, hl]

theorem delete_index_some (s : KNNStore) (name : String) (ix : Index)
    (hl : lookupIdx s.indexes name = some ix) :
    s.delete_index name =
      (.ok (),
       { s with indexes := removeIdx s.indexes name,
                commits := s.commits + 1 }) := by
  simp [KNNStore.delete_index, hl]

/-! Preservation of the trace invariant. -/

theorem inv_of_preserve (t : TraceState) (s' : KNNStore)
    (hnd : (t.store.indexes.map Prod.fst).Nodup →
      (s'.indexes.map Prod.fst).Nodup)
    (hlk : (t.store.indexes.map Prod.fst).Nodup →
      ∀ n ix', lookupIdx s'.indexes n = some ix' →
      ∃ ix, lookupIdx t.store.indexes n = some ix ∧
        ix'.index.M = ix.index.M ∧
        ix'.index.items.length = ix.index.items.length)
    (hI : TraceInv t) : TraceInv { t with store := s' } := by
  obtain ⟨hnd0, hmain⟩ := hI
  refine ⟨hnd hnd0, fun n ix' hl' => ?_⟩
  obtain ⟨ix, hl, hMeq, hlen⟩ := hlk hnd0 n ix' hl'
  obtain ⟨hiff, hcount⟩ := hmain n ix hl
  exact ⟨by rw [hMeq]; exact hiff, by rw [hlen]; exact hcount⟩

theorem inv_read {α : Type} (t : TraceState) (name : String)
    (body : HnswIndex → Except PyExc α) (hI : TraceInv t) :
    TraceInv { t with store := (withRead t.store name body).2 } := by
  refine inv_of_preserve t _ (fun hnd => ?_) (fun _ n ix' hl' => ?_) hI
  · rw [withRead_keys]; exact hnd
  · obtain ⟨ix, hl, hEq⟩ := withRead_lookup t.store name body n ix' hl'
    exact ⟨ix, hl, by rw [hEq], by rw [hEq]⟩

theorem inv_write_pres {α : Type} (t : TraceState) (name : String)
    (body : HnswIndex → Except PyExc (α × HnswIndex))
    (hbody : ∀ h a h', body h = .ok (a, h') →
      h'.M = h.M ∧ h'.items.length = h.items.length)
    (hI : TraceInv t) :
    TraceInv { t with store := (withWrite t.store name body).2 } := by
  refine inv_of_preserve t _ (fun hnd => ?_) (fun _ n ix' hl' => ?_) hI
  · rw [withWrite_keys]; exact hnd
  · obtain ⟨ix, hl, hcase⟩ := withWrite_lookup t.store name body n ix' hl'
    rcases hcase with hEq | ⟨hn, a, hb⟩
    · exact ⟨ix, hl, by rw [hEq], by rw [hEq]⟩
    · obtain ⟨hMeq, hlen⟩ := hbody ix.index a ix'.index hb
      exact ⟨ix, hl, hMeq, hlen⟩

theorem inv_store_eq (t : TraceState) (hI : TraceInv t) :
    TraceInv { t with store := t.store } := hI

theorem inv_delete (t : TraceState) (name : String) (hI : TraceInv t) :
    TraceInv { t with store := (t.store.delete_index name).2 } := by
  cases hl : lookupIdx t.store.indexes name with
  | none =>
    rw [delete_index_none t.store name hl]
    exact hI
  | some ix =>
    rw [delete_index_some t.store name ix hl]
    refine inv_of_preserve t _ (fun hnd => ?_) (fun hnd n ix' hl' => ?_) hI
    · exact hnd.sublist (keys_removeIdx_sublist _ _)
    · dsimp only at hl'
      by_cases hn : n = name
      · subst hn
        rw [lookupIdx_removeIdx_self _ _ hnd] at hl'
        cases hl'
      · rw [lookupIdx_removeIdx_other _ _ _ hn] at hl'
        exact ⟨ix', hl', rfl, rfl⟩

/-- One command preserves the trace invariant, provided an `initIndex`
command carries a positive `M`. -/
theorem stepTrace_inv (t : TraceState) (c : Cmd) (hI : TraceInv t)
    (hM : ∀ n me ec M, c = .initIndex n me ec M → 1 ≤ M) :
    TraceInv (stepTrace t c) := by
  cases c with
  | connect payload => exact hI
  | indexExists name => exact hI
  | getIndexes => exact hI
  | getEF name =>
    show TraceInv { t with store :=
      (withRead t.store name (fun h => (.ok h.ef : Except PyExc Nat))).2 }
    exact inv_read t name _ hI
  | getEFConstruction name =>
    show TraceInv { t with store :=
      (withRead t.store name
        (fun h => (.ok h.ef_construction : Except PyExc Nat))).2 }
    exact inv_read t name _ hI
  | queryIndex name vector k =>
    show TraceInv { t with store :=
      (withRead t.store name
        (fun _ => (.ok { vector := vector, k := k } :
          Except PyExc KnnQueryResult))).2 }
    exact inv_read t name _ hI
  | countCmd name =>
    show TraceInv { t with store :=
      (withRead t.store name
        (fun h => (.ok h.get_current_count : Except PyExc Nat))).2 }
    exact inv_read t name _ hI
  | maxElements name =>
    show TraceInv { t with store :=
      (withRead t.store name
        (fun h => (.ok h.get_max_elements : Except PyExc Nat))).2 }
    exact inv_read t name _ hI
  | info name =>
    show TraceInv { t with store :=
      (withRead t.store name
        (fun h => (.ok { space := h.space, dim := h.dim, M := h.M,
                         ef_construction := h.ef_construction,
                         max_elements := h.get_max_elements,
                         element_count := h.get_current_count,
                         ef := h.ef } :
            Except PyExc InfoRecord))).2 }
    exact inv_read t name _ hI
  | getItems name ids =>
    show TraceInv { t with store :=
      (withRead t.store name
        (fun h => if h.get_current_count = 0 then .ok []
                  else h.get_items ids)).2 }
    exact inv_read t name _ hI
  | getIds name =>
    show TraceInv { t with store :=
      (withRead t.store name
        (fun h => if h.get_current_count = 0 then (.ok [] : Except PyExc (List Int))
                  else .ok h.get_ids)).2 }
    exact inv_read t name _ hI
  | deleteIndex name => exact inv_delete t name hI
  | setEF name new_ef =>
    show TraceInv { t with store :=
      (withWrite t.store name
        (fun h => (h.set_ef new_ef).map (fun h' => ((), h')))).2 }
    refine inv_write_pres t name _ (fun h a h' hb => ?_) hI
    have hb' := map_unit_pair_ok hb
    obtain ⟨h1, h2, _⟩ := set_ef_effect h new_ef h' hb'
    exact ⟨h1, by rw [h2]⟩
  | deleteItem name label =>
    show TraceInv { t with store :=
      (withWrite t.store name
        (fun h => (h.mark_deleted label).map (fun h' => ((), h')))).2 }
    refine inv_write_pres t name _ (fun h a h' hb => ?_) hI
    have hb' := map_unit_pair_ok hb
    obtain ⟨h1, h2, _⟩ := mark_deleted_effect h label h' hb'
    exact ⟨h1, by rw [h2]⟩
  | resizeIndex name new_size =>
    show TraceInv { t with store :=
      (withWrite t.store name
        (fun h => .ok ((), h.resize_index new_size))).2 }
    refine inv_write_pres t name _ (fun h a h' hb => ?_) hI
    simp only [Except.ok.injEq, Prod.mk.injEq] at hb
    obtain ⟨-, rfl⟩ := hb
    exact ⟨rfl, rfl⟩
  | createIndex name space dim =>
    have hc := create_index_spec t.store name space dim
    by_cases hsp : ALLOWED_SPACES.contains space
    · cases hl : lookupIdx t.store.indexes name with
      | some ix =>
        have heq := hc.2.1 hsp (by rw [hl]; rfl)
        simp only [stepTrace, executeCommand_createIndex]
        rw [heq]
        exact hI
      | none =>
        have heq := hc.2.2 hsp hl
        simp only [stepTrace, executeCommand_createIndex]
        rw [heq]
        dsimp only [Except.map]
        obtain ⟨hnd0, hmain⟩ := hI
        constructor
        · dsimp only
          rw [keys_setIdx_new _ _ _ hl]
          have hnm : name ∉ t.store.indexes.map Prod.fst :=
            (lookupIdx_eq_none_iff _ _).mp hl
          simp [List.nodup_append, hnd0, hnm]
        · intro n ix' hl'
          dsimp only at hl' ⊢
          by_cases hn : n = name
          · subst hn
            rw [lookupIdx_setIdx_self] at hl'
            cases hl'
            refine ⟨?_, ?_⟩
            · simp [Index.new, HnswIndex.new]
            · simp [Index.new, HnswIndex.new]
          · rw [lookupIdx_setIdx_other _ _ _ _ hn] at hl'
            have hm := hmain n ix' hl'
            simpa [hn] using hm
    · have heq := hc.1 hsp
      simp only [stepTrace, executeCommand_createIndex]
      rw [heq]
      exact hI
  | initIndex name me ec M =>
    have hMpos : 1 ≤ M := hM name me ec M rfl
    cases hl : lookupIdx t.store.indexes name with
    | none =>
      have heq := withInit_none t.store name
        (fun h => (h.init_index me ec M).map (fun h' => ((), h'))) hl
      simp only [stepTrace, executeCommand_initIndex, KNNStore.init_index]
      rw [heq]
      exact hI
    | some ix =>
      cases hb : ix.index.init_index me ec M with
      | error e =>
        have hbody : (fun h => (h.init_index me ec M).map
            (fun h' => ((), h'))) ix.index = .error e := by
          simp [hb, Except.map]
        have heq := withInit_body_err t.store name
          (fun h => (h.init_index me ec M).map (fun h' => ((), h'))) ix e hl hbody
        simp only [stepTrace, executeCommand_initIndex, KNNStore.init_index]
        rw [heq]
        dsimp only [Except.map]
        refine inv_of_preserve t _ (fun hnd => ?_) (fun hnd n ix' hl' => ?_) hI
        · dsimp only
          rw [keys_setIdx_mem _ _ ix _ hl]
          exact hnd
        · dsimp only at hl'
          by_cases hn : n = name
          · subst hn
            rw [lookupIdx_setIdx_self] at hl'
            cases hl'
            exact ⟨ix, hl, rfl, rfl⟩
          · rw [lookupIdx_setIdx_other _ _ _ _ hn] at hl'
            exact ⟨ix', hl', rfl, rfl⟩
      | ok h' =>
        have hbody : (fun h0 => (h0.init_index me ec M).map
            (fun h1 => ((), h1))) ix.index = .ok ((), h') := by
          simp [hb, Except.map]
        have heq := withInit_body_ok t.store name
          (fun h0 => (h0.init_index me ec M).map (fun h1 => ((), h1))) ix () h' hl hbody
        simp only [stepTrace, executeCommand_initIndex, KNNStore.init_index]
        rw [heq]
        dsimp only [Except.map]
        obtain ⟨hM0, hM', hitems⟩ := init_index_effect ix.index me ec M h' hb
        obtain ⟨hnd0, hmain⟩ := hI
        constructor
        · dsimp only
          rw [keys_setIdx_mem _ _ ix _ hl]
          exact hnd0
        · intro n ix' hl'
          dsimp only at hl' ⊢
          by_cases hn : n = name
          · subst hn
            rw [lookupIdx_setIdx_self] at hl'
            cases hl'
            refine ⟨⟨fun h0 => ?_, fun hf => ?_⟩, ?_⟩
            · dsimp only at h0
              rw [hM'] at h0
              omega
            · simp at hf
            · dsimp only
              rw [hitems]
              exact (hmain n ix hl).2
          · rw [lookupIdx_setIdx_other _ _ _ _ hn] at hl'
            have hm := hmain n ix' hl'
            simpa [hn] using hm
  | addItems name data ids =>
    cases hl : lookupIdx t.store.indexes name with
    | none =>
      have heq := withWrite_none t.store name
        (fun h => (h.add_items data ids).map (fun h' => ((), h'))) hl
      simp only [stepTrace, executeCommand_addItems, KNNStore.add_items]
      rw [heq]
      exact hI
    | some ix =>
      by_cases hM0 : ix.index.M = 0
      · have heq := withWrite_uninit t.store name
          (fun h => (h.add_items data ids).map (fun h' => ((), h'))) ix hl hM0
        simp only [stepTrace, executeCommand_addItems, KNNStore.add_items]
        rw [heq]
        dsimp only [Except.map]
        refine inv_of_preserve t _ (fun hnd => ?_) (fun hnd n ix' hl' => ?_) hI
        · dsimp only
          rw [keys_setIdx_mem _ _ ix _ hl]
          exact hnd
        · dsimp only at hl'
          by_cases hn : n = name
          · subst hn
            rw [lookupIdx_setIdx_self] at hl'
            cases hl'
            exact ⟨ix, hl, rfl, rfl⟩
          · rw [lookupIdx_setIdx_other _ _ _ _ hn] at hl'
            exact ⟨ix', hl', rfl, rfl⟩
      · cases ha : ix.index.add_items data ids with
        | error e =>
          have hbody : (fun h => (h.add_items data ids).map
              (fun h' => ((), h'))) ix.index = .error e := by
            simp [ha, Except.map]
          have heq := withWrite_body_err t.store name
            (fun h => (h.add_items data ids).map (fun h' => ((), h'))) ix e hl hM0 hbody
          simp only [stepTrace, executeCommand_addItems, KNNStore.add_items]
          rw [heq]
          dsimp only [Except.map]
          refine inv_of_preserve t _ (fun hnd => ?_) (fun hnd n ix' hl' => ?_) hI
          · dsimp only
            rw [keys_setIdx_mem _ _ ix _ hl]
            exact hnd
          · dsimp only at hl'
            by_cases hn : n = name
            · subst hn
              rw [lookupIdx_setIdx_self] at hl'
              cases hl'
              exact ⟨ix, hl, rfl, rfl⟩
            · rw [lookupIdx_setIdx_other _ _ _ _ hn] at hl'
              exact ⟨ix', hl', rfl, rfl⟩
        | ok h' =>
          have hbody : (fun h0 => (h0.add_items data ids).map
              (fun h1 => ((), h1))) ix.index = .ok ((), h') := by
            simp [ha, Except.map]
          have heq := withWrite_body_ok t.store name
            (fun h0 => (h0.add_items data ids).map (fun h1 => ((), h1))) ix () h' hl hM0 hbody
          simp only [stepTrace, executeCommand_addItems, KNNStore.add_items]
          rw [heq]
          dsimp only [Except.map]
          obtain ⟨hMeq, hlen, _⟩ := add_items_effect ix.index data ids h' ha
          obtain ⟨hnd0, hmain⟩ := hI
          constructor
          · dsimp only
            rw [keys_setIdx_mem _ _ ix _ hl]
            exact hnd0
          · intro n ix' hl'
            dsimp only at hl' ⊢
            by_cases hn : n = name
            · subst hn
              rw [lookupIdx_setIdx_self] at hl'
              cases hl'
              refine ⟨?_, ?_⟩
              · dsimp only
                rw [hMeq]
                exact (hmain n ix hl).1
              · dsimp only
                rw [hlen, (hmain n ix hl).2]
                simp
            · rw [lookupIdx_setIdx_other _ _ _ _ hn] at hl'
              have hm := hmain n ix' hl'
              simpa [hn] using hm

theorem foldl_stepTrace_inv (cmds : List Cmd) : ∀ (t : TraceState),
    TraceInv t → initsPositive cmds = true →
    TraceInv (cmds.foldl stepTrace t) := by
  induction cmds with
  | nil => intro t hI _; exact hI
  | cons c rest ih =>
    intro t hI hp
    have hMc : ∀ n me ec M, c = .initIndex n me ec M → 1 ≤ M := by
      intro n me ec M hc
      subst hc
      simp only [initsPositive, Bool.and_eq_true] at hp
      exact of_decide_eq_true hp.1
    have hrest : initsPositive rest = true := by
      cases c <;> simp only [initsPositive, Bool.and_eq_true] at hp <;>
        first
          | exact hp
          | exact hp.2
    exact ih (stepTrace t c) (stepTrace_inv t c hI hMc) hrest

theorem initialTrace_inv : TraceInv initialTrace := by
  constructor
  · simp [initialTrace, KNNStore.empty]
  · intro n ix hl
    simp [initialTrace, KNNStore.empty, lookupIdx] at hl

theorem runTrace_inv (cmds : List Cmd) (h : initsPositive cmds = true) :
    TraceInv (runTrace cmds) :=
  foldl_stepTrace_inv cmds initialTrace initialTrace_inv h

/-- On a successful pass through `_index_for_write` the named index was
registered, initialized, the body succeeded on its payload, and the
registry afterwards holds the body's resulting payload. -/
theorem withWrite_ok_inv {α : Type} (s : KNNStore) (name : String)
    (body : HnswIndex → Except PyExc (α × HnswIndex)) (a : α)
    (hok : (withWrite s name body).1 = .ok a) :
    ∃ ix h', lookupIdx s.indexes name = some ix ∧ ¬ ix.index.M = 0 ∧
      body ix.index = .ok (a, h') ∧
      lookupIdx (withWrite s name body).2.indexes name =
        some { index := h', snap := some h', writeLocked := false,
               readers := ix.readers } := by
  cases hl : lookupIdx s.indexes name with
  | none => rw [withWrite_none s name body hl] at hok; cases hok
  | some ix =>
    by_cases hM : ix.index.M = 0
    · rw [withWrite_uninit s name body ix hl hM] at hok
      cases hok
    · cases hb : body ix.index with
      | error e =>
        rw [withWrite_body_err s name body ix e hl hM hb] at hok
        cases hok
      | ok p =>
        obtain ⟨a0, h'⟩ := p
        have heq := withWrite_body_ok s name body ix a0 h' hl hM hb
        rw [heq] at hok
        cases hok
        refine ⟨ix, h', rfl, hM, hb, ?_⟩
        rw [heq]
        exact lookupIdx_setIdx_self _ _ _

/-- A single executed command never shrinks the element count of an index
that stays registered across it. -/
theorem step_count_mono (s : KNNStore) (c : Cmd) (n : String)
    (ix ix' : Index)
    (hnd : (s.indexes.map Prod.fst).Nodup)
    (h1 : lookupIdx s.indexes n = some ix)
    (h2 : lookupIdx (executeCommand c s).2.indexes n = some ix') :
    ix.index.items.length ≤ ix'.index.items.length := by
  cases c with
  | connect payload =>
    have h2' : lookupIdx s.indexes n = some ix' := h2
    rw [h1] at h2'
    cases h2'
    exact le_rfl
  | indexExists name =>
    have h2' : lookupIdx s.indexes n = some ix' := h2
    rw [h1] at h2'
    cases h2'
    exact le_rfl
  | getIndexes =>
    have h2' : lookupIdx s.indexes n = some ix' := h2
    rw [h1] at h2'
    cases h2'
    exact le_rfl
  | getEF name =>
    obtain ⟨ix0, hl0, hEq⟩ := withRead_lookup s name
      (fun h => (.ok h.ef : Except PyExc Nat)) n ix' h2
    rw [h1] at hl0
    cases hl0
    rw [hEq]
  | getEFConstruction name =>
    obtain ⟨ix0, hl0, hEq⟩ := withRead_lookup s name
      (fun h => (.ok h.ef_construction : Except PyExc Nat)) n ix' h2
    rw [h1] at hl0
    cases hl0
    rw [hEq]
  | queryIndex name vector k =>
    obtain ⟨ix0, hl0, hEq⟩ := withRead_lookup s name
      (fun _ => (.ok { vector := vector, k := k } : Except PyExc KnnQueryResult)) n ix' h2
    rw [h1] at hl0
    cases hl0
    rw [hEq]
  | countCmd name =>
    obtain ⟨ix0, hl0, hEq⟩ := withRead_lookup s name
      (fun h => (.ok h.get_current_count : Except PyExc Nat)) n ix' h2
    rw [h1] at hl0
    cases hl0
    rw [hEq]
  | maxElements name =>
    obtain ⟨ix0, hl0, hEq⟩ := withRead_lookup s name
      (fun h => (.ok h.get_max_elements : Except PyExc Nat)) n ix' h2
    rw [h1] at hl0
    cases hl0
    rw [hEq]
  | info name =>
    obtain ⟨ix0, hl0, hEq⟩ := withRead_lookup s name
      (fun h => (.ok { space := h.space, dim := h.dim, M := h.M,
                       ef_construction := h.ef_construction,
                       max_elements := h.get_max_elements,
                       element_count := h.get_current_count,
                       ef := h.ef } : Except PyExc InfoRecord)) n ix' h2
    rw [h1] at hl0
    cases hl0
    rw [hEq]
  | getItems name ids =>
    obtain ⟨ix0, hl0, hEq⟩ := withRead_lookup s name
      (fun h => if h.get_current_count = 0 then .ok [] else h.get_items ids) n ix' h2
    rw [h1] at hl0
    cases hl0
    rw [hEq]
  | getIds name =>
    obtain ⟨ix0, hl0, hEq⟩ := withRead_lookup s name
      (fun h => if h.get_current_count = 0 then (.ok [] : Except PyExc (List Int)) else .ok h.get_ids) n ix' h2
    rw [h1] at hl0
    cases hl0
    rw [hEq]
  | setEF name new_ef =>
    obtain ⟨ix0, hl0, hcase⟩ := withWrite_lookup s name
      (fun h => (h.set_ef new_ef).map (fun h' => ((), h'))) n ix' h2
    rw [h1] at hl0
    cases hl0
    rcases hcase with hEq | ⟨-, a, hb⟩
    · rw [hEq]
    · obtain ⟨-, h2', -⟩ := set_ef_effect _ new_ef _ (map_unit_pair_ok hb)
      rw [h2']
  | deleteItem name label =>
    obtain ⟨ix0, hl0, hcase⟩ := withWrite_lookup s name
      (fun h => (h.mark_deleted label).map (fun h' => ((), h'))) n ix' h2
    rw [h1] at hl0
    cases hl0
    rcases hcase with hEq | ⟨-, a, hb⟩
    · rw [hEq]
    · obtain ⟨-, h2', -⟩ := mark_deleted_effect _ label _ (map_unit_pair_ok hb)
      rw [h2']
  | resizeIndex name new_size =>
    obtain ⟨ix0, hl0, hcase⟩ := withWrite_lookup s name
      (fun h => (.ok ((), h.resize_index new_size) : Except PyExc (Unit × HnswIndex))) n ix' h2
    rw [h1] at hl0
    cases hl0
    rcases hcase with hEq | ⟨-, a, hb⟩
    · rw [hEq]
    · simp only [Except.ok.injEq, Prod.mk.injEq] at hb
      obtain ⟨-, hr⟩ := hb
      rw [← hr]
      exact le_rfl
  | addItems name data ids =>
    obtain ⟨ix0, hl0, hcase⟩ := withWrite_lookup s name
      (fun h => (h.add_items data ids).map (fun h' => ((), h'))) n ix' h2
    rw [h1] at hl0
    cases hl0
    rcases hcase with hEq | ⟨-, a, hb⟩
    · rw [hEq]
    · obtain ⟨-, h2', -⟩ := add_items_effect _ data ids _ (map_unit_pair_ok hb)
      rw [h2']
      exact Nat.le_add_right _ _
  | initIndex name me ec M =>
    obtain ⟨ix0, hl0, hcase⟩ := withInit_lookup s name
      (fun h => (h.init_index me ec M).map (fun h' => ((), h'))) n ix' h2
    rw [h1] at hl0
    cases hl0
    rcases hcase with hEq | ⟨-, a, hb⟩
    · rw [hEq]
    · obtain ⟨-, -, h2'⟩ := init_index_effect _ me ec M _ (map_unit_pair_ok hb)
      rw [h2']
  | createIndex name space dim =>
    have hc := create_index_spec s name space dim
    by_cases hsp : ALLOWED_SPACES.contains space
    · cases hl : lookupIdx s.indexes name with
      | some ix0 =>
        have heq := hc.2.1 hsp (by rw [hl]; rfl)
        have h2' : lookupIdx ((s.create_index name space dim).2.indexes) n =
            some ix' := h2
        rw [heq] at h2'
        rw [h1] at h2'
        cases h2'
        exact le_rfl
      | none =>
        have heq := hc.2.2 hsp hl
        have h2' : lookupIdx ((s.create_index name space dim).2.indexes) n =
            some ix' := h2
        rw [heq] at h2'
        dsimp only at h2'
        by_cases hn : n = name
        · subst hn
          rw [h1] at hl
          cases hl
        · rw [lookupIdx_setIdx_other _ _ _ _ hn, h1] at h2'
          cases h2'
          exact le_rfl
    · have heq := hc.1 hsp
      have h2' : lookupIdx ((s.create_index name space dim).2.indexes) n =
          some ix' := h2
      rw [heq] at h2'
      rw [h1] at h2'
      cases h2'
      exact le_rfl
  | deleteIndex name =>
    cases hl : lookupIdx s.indexes name with
    | none =>
      have heq := delete_index_none s name hl
      have h2' : lookupIdx ((s.delete_index name).2.indexes) n = some ix' := h2
      rw [heq] at h2'
      rw [h1] at h2'
      cases h2'
      exact le_rfl
    | some ix0 =>
      have heq := delete_index_some s name ix0 hl
      have h2' : lookupIdx ((s.delete_index name).2.indexes) n = some ix' := h2
      rw [heq] at h2'
      dsimp only at h2'
      by_cases hn : n = name
      · subst hn
        rw [lookupIdx_removeIdx_self _ _ hnd] at h2'
        cases h2'
      · rw [lookupIdx_removeIdx_other _ _ _ hn, h1] at h2'
        cases h2'
        exact le_rfl

/-! Framing-layer lemmas. -/

theorem toBytesBE_length : ∀ (k n : Nat), (toBytesBE k n).length = k
  | 0, _ => rfl
  | k + 1, n => by
    simp [toBytesBE, toBytesBE_length k]

theorem foldl_toBytesBE : ∀ (k n a : Nat),
    (toBytesBE k n).foldl (fun x b => x * 256 + b) a =
      a * 256 ^ k + n % 256 ^ k
  | 0, n, a => by simp [toBytesBE, Nat.mod_one]
  | k + 1, n, a => by
    rw [toBytesBE, List.foldl_append, foldl_toBytesBE k (n / 256) a]
    simp only [List.foldl_cons, List.foldl_nil]
    have hm : n % (256 * 256 ^ k) = n % 256 + 256 * (n / 256 % 256 ^ k) :=
      Nat.mod_mul
    have hp : (256:Nat) ^ (k + 1) = 256 * 256 ^ k := by ring
    rw [hp, hm]
    ring

theorem fromBytesBE_toBytesBE (k n : Nat) (h : n < 256 ^ k) :
    fromBytesBE (toBytesBE k n) = n := by
  unfold fromBytesBE
  rw [foldl_toBytesBE k n 0, Nat.mod_eq_of_lt h]
  simp

theorem connectionReplies_length (cmds : List Cmd) : ∀ (s : KNNStore),
    (connectionReplies s cmds).1.length = cmds.length := by
  induction cmds with
  | nil => intro s; rfl
  | cons c rest ih =>
    intro s
    simp only [connectionReplies, List.length_cons, ih, List.length_nil]

/-! ## Claim theorems -/

/-- C1: for every command record and store state, `Command.execute` never
propagates an exception — a store operation that raises yields a
`Result` with state FAILED whose data is that exception, and one that
returns a value yields a `Result` with state SUCCEEDED whose data is that
value; the connection loop answers every queued command, so it continues
after a FAILED result. -/
theorem C1_execute_never_propagates (c : Cmd) (s : KNNStore) :
    (∀ e s', executeCommand c s = (.error e, s') →
      Command.execute c s = ({ data := .error e, state := .FAILED }, s')) ∧
    (∀ v s', executeCommand c s = (.ok v, s') →
      Command.execute c s = ({ data := .ok v, state := .SUCCEEDED }, s')) ∧
    (∀ rest : List Cmd,
      (connectionReplies s (c :: rest)).1.length = rest.length + 1) := by
  refine ⟨fun e s' h => ?_, fun v s' h => ?_, fun rest => ?_⟩
  · unfold Command.execute
    rw [h]
  · unfold Command.execute
    rw [h]
  · rw [connectionReplies_length]
    simp

theorem C1_execute_never_propagates_witness :
    Command.execute (Cmd.countCmd "a") KNNStore.empty =
      ({ data := .error (.knn (.indexDoesNotExist "a")), state := .FAILED },
       KNNStore.empty) ∧
    Command.execute (Cmd.indexExists "a") KNNStore.empty =
      ({ data := .ok (.vbool false), state := .SUCCEEDED }, KNNStore.empty) ∧
    (connectionReplies KNNStore.empty
      [Cmd.countCmd "a", Cmd.indexExists "a"]).1.length = 2 := by
  refine ⟨?_, ?_, ?_⟩
  · exact (C1_execute_never_propagates (Cmd.countCmd "a") KNNStore.empty).1
      _ _ (by rfl)
  · exact (C1_execute_never_propagates (Cmd.indexExists "a") KNNStore.empty).2.1
      _ _ (by rfl)
  · exact (C1_execute_never_propagates (Cmd.countCmd "a") KNNStore.empty).2.2
      [Cmd.indexExists "a"]

/-- C2: a value packed under the key derived from a secret decrypts and
decodes back to itself within the TTL; decrypting with the key derived
from any different secret fails with `InvalidToken`; decrypting after the
configured TTL (default 60 seconds) has elapsed fails with
`InvalidToken`. -/
theorem C2_codec_round_trip (v : WireObj) (s1 s2 : String) (tEnc tDec : Nat) :
    FERNET_TTL = 60 ∧
    (tDec ≤ tEnc + FERNET_TTL →
      receive_obj (some (pack_obj v (gen_key s1) tEnc)) (gen_key s1) tDec =
        .ok (some v)) ∧
    (s2 ≠ s1 →
      receive_obj (some (pack_obj v (gen_key s1) tEnc)) (gen_key s2) tDec =
        .error .invalidToken) ∧
    (tEnc + FERNET_TTL < tDec →
      receive_obj (some (pack_obj v (gen_key s1) tEnc)) (gen_key s1) tDec =
        .error .invalidToken) := by
  refine ⟨rfl, fun h => ?_, fun h => ?_, fun h => ?_⟩
  · simp [receive_obj, fernetDecrypt, pack_obj, Except.map, Nat.not_lt.mpr h]
  · have hk : gen_key s1 ≠ gen_key s2 := by
      simp only [gen_key, ne_eq, FernetKey.mk.injEq]
      exact fun hc => h hc.symm
    simp [receive_obj, fernetDecrypt, pack_obj, Except.map, hk]
  · simp [receive_obj, fernetDecrypt, pack_obj, Except.map, h]

theorem C2_codec_round_trip_witness :
    receive_obj (some (pack_obj (.cmd (.getIds "a")) (gen_key "s") 5))
        (gen_key "s") 30 = .ok (some (.cmd (.getIds "a"))) ∧
    receive_obj (some (pack_obj (.cmd (.getIds "a")) (gen_key "s") 5))
        (gen_key "t") 30 = .error .invalidToken ∧
    receive_obj (some (pack_obj (.cmd (.getIds "a")) (gen_key "s") 5))
        (gen_key "s") 66 = .error .invalidToken := by
  refine ⟨?_, ?_, ?_⟩
  · exact (C2_codec_round_trip (.cmd (.getIds "a")) "s" "t" 5 30).2.1 (by decide)
  · exact (C2_codec_round_trip (.cmd (.getIds "a")) "s" "t" 5 30).2.2.1
      (by decide)
  · exact (C2_codec_round_trip (.cmd (.getIds "a")) "s" "t" 5 66).2.2.2
      (by decide)

/-- C4: `create_index` validates the space before the name — an unknown
space fails with `UnknownSpace` whatever the name; a taken name fails
with `IndexAlreadyExists`; otherwise a fresh uninitialized (`M = 0`)
wrapper is stored under the name, the registry is committed, and the call
returns true. -/
theorem C4_create_index (s : KNNStore) (name space : String) (dim : Nat) :
    (space ∉ ALLOWED_SPACES →
      s.create_index name space dim = (.error (.knn (.unknownSpace space)), s)) ∧
    (space ∈ ALLOWED_SPACES → (lookupIdx s.indexes name).isSome →
      s.create_index name space dim =
        (.error (.knn (.indexAlreadyExists name)), s)) ∧
    (space ∈ ALLOWED_SPACES → lookupIdx s.indexes name = none →
      (s.create_index name space dim).1 = .ok true ∧
      lookupIdx (s.create_index name space dim).2.indexes name =
        some (Index.new (HnswIndex.new space dim)) ∧
      (Index.new (HnswIndex.new space dim)).index.M = 0 ∧
      (s.create_index name space dim).2.commits = s.commits + 1) := by
  have hc := create_index_spec s name space dim
  refine ⟨fun h => ?_, fun h1 h2 => ?_, fun h1 h2 => ?_⟩
  · exact hc.1 (by simpa using h)
  · exact hc.2.1 (by simpa using h1) h2
  · have heq := hc.2.2 (by simpa using h1) h2
    rw [heq]
    exact ⟨rfl, lookupIdx_setIdx_self _ _ _, rfl, rfl⟩

theorem C4_create_index_witness :
    ((KNNStore.empty.create_index "a" "l2" 2).1 = .ok true ∧
      lookupIdx (KNNStore.empty.create_index "a" "l2" 2).2.indexes "a" =
        some (Index.new (HnswIndex.new "l2" 2)) ∧
      (Index.new (HnswIndex.new "l2" 2)).index.M = 0 ∧
      (KNNStore.empty.create_index "a" "l2" 2).2.commits =
        KNNStore.empty.commits + 1) ∧
    (KNNStore.empty.create_index "a" "l2" 2).2.create_index "a" "l1" 3 =
      (.error (.knn (.unknownSpace "l1")), (KNNStore.empty.create_index "a" "l2" 2).2) ∧
    (KNNStore.empty.create_index "a" "l2" 2).2.create_index "a" "l2" 3 =
      (.error (.knn (.indexAlreadyExists "a")), (KNNStore.empty.create_index "a" "l2" 2).2) := by
  refine ⟨?_, ?_, ?_⟩
  · exact (C4_create_index KNNStore.empty "a" "l2" 2).2.2 (by decide) (by rfl)
  · exact (C4_create_index (KNNStore.empty.create_index "a" "l2" 2).2
      "a" "l1" 3).1 (by decide)
  · exact (C4_create_index (KNNStore.empty.create_index "a" "l2" 2).2
      "a" "l2" 3).2.1 (by decide) (by rfl)

/-- C10: on an initialized index whose element count is 0, `get_items`
returns the empty list for every requested ids — even unknown labels,
with no error — and `get_ids` returns the empty list. -/
theorem C10_empty_index_reads (s : KNNStore) (name : String) (ix : Index)
    (ids : List Int)
    (hl : lookupIdx s.indexes name = some ix) (hM : ¬ ix.index.M = 0)
    (hc : ix.index.get_current_count = 0) :
    (s.get_items name ids).1 = .ok [] ∧ (s.get_ids name).1 = .ok [] := by
  constructor
  · show (withRead s name
      (fun h => if h.get_current_count = 0 then .ok []
                else h.get_items ids)).1 = _
    rw [withRead_body s name _ ix hl hM]
    simp [hc]
  · show (withRead s name
      (fun h => if h.get_current_count = 0 then (.ok [] : Except PyExc (List Int))
                else .ok h.get_ids)).1 = _
    rw [withRead_body s name _ ix hl hM]
    simp [hc]

theorem C10_empty_index_reads_witness :
    ((((KNNStore.empty.create_index "a" "l2" 2).2.init_index "a" 10 200 16).2.get_items
        "a" [7, 9]).1 = .ok []) ∧
    ((((KNNStore.empty.create_index "a" "l2" 2).2.init_index "a" 10 200 16).2.get_ids
        "a").1 = .ok []) := by
  exact C10_empty_index_reads
    ((KNNStore.empty.create_index "a" "l2" 2).2.init_index "a" 10 200 16).2
    "a" _ [7, 9] (by rfl) (by decide) (by rfl)

/-- Every read or write store operation on an existing index with
`M == 0` fails with `IndexNotInitialized`, leaving the write lock held
and the snapshot unwritten (writes) or the reader count incremented
(reads). -/
theorem ops_on_uninitialized (s : KNNStore) (name : String) (ix : Index)
    (data : List (List Int)) (ids : List Int) (vector : List (List Int))
    (k new_ef new_size : Nat) (label : Int)
    (hl : lookupIdx s.indexes name = some ix) (hM : ix.index.M = 0) :
    ((s.add_items name data ids).1 = .error (.knn (.indexNotInitialized name)) ∧
      lookupIdx (s.add_items name data ids).2.indexes name =
        some { ix with writeLocked := true }) ∧
    ((s.set_ef name new_ef).1 = .error (.knn (.indexNotInitialized name)) ∧
      lookupIdx (s.set_ef name new_ef).2.indexes name =
        some { ix with writeLocked := true }) ∧
    ((s.resize_index name new_size).1 = .error (.knn (.indexNotInitialized name)) ∧
      lookupIdx (s.resize_index name new_size).2.indexes name =
        some { ix with writeLocked := true }) ∧
    ((s.delete_item name label).1 = .error (.knn (.indexNotInitialized name)) ∧
      lookupIdx (s.delete_item name label).2.indexes name =
        some { ix with writeLocked := true }) ∧
    ((s.query_index name vector k).1 = .error (.knn (.indexNotInitialized name)) ∧
      lookupIdx (s.query_index name vector k).2.indexes name =
        some { ix with readers := ix.readers + 1 }) ∧
    ((s.count name).1 = .error (.knn (.indexNotInitialized name)) ∧
      lookupIdx (s.count name).2.indexes name =
        some { ix with readers := ix.readers + 1 }) ∧
    ((s.info name).1 = .error (.knn (.indexNotInitialized name)) ∧
      lookupIdx (s.info name).2.indexes name =
        some { ix with readers := ix.readers + 1 }) ∧
    ((s.max_elements name).1 = .error (.knn (.indexNotInitialized name)) ∧
      lookupIdx (s.max_elements name).2.indexes name =
        some { ix with readers := ix.readers + 1 }) ∧
    ((s.get_ef name).1 = .error (.knn (.indexNotInitialized name)) ∧
      lookupIdx (s.get_ef name).2.indexes name =
        some { ix with readers := ix.readers + 1 }) ∧
    ((s.get_ef_construction name).1 = .error (.knn (.indexNotInitialized name)) ∧
      lookupIdx (s.get_ef_construction name).2.indexes name =
        some { ix with readers := ix.readers + 1 }) ∧
    ((s.get_items name ids).1 = .error (.knn (.indexNotInitialized name)) ∧
      lookupIdx (s.get_items name ids).2.indexes name =
        some { ix with readers := ix.readers + 1 }) ∧
    ((s.get_ids name).1 = .error (.knn (.indexNotInitialized name)) ∧
      lookupIdx (s.get_ids name).2.indexes name =
        some { ix with readers := ix.readers + 1 }) := by
  refine ⟨?_, ?_, ?_, ?_, ?_, ?_, ?_, ?_, ?_, ?_, ?_, ?_⟩ <;>
    constructor <;>
      simp [KNNStore.add_items, KNNStore.set_ef, KNNStore.resize_index,
        KNNStore.delete_item, KNNStore.query_index, KNNStore.count,
        KNNStore.info, KNNStore.max_elements, KNNStore.get_ef,
        KNNStore.get_ef_construction, KNNStore.get_items, KNNStore.get_ids,
        withWrite, withRead, hl, hM, Index.read_from_path,
        lookupIdx_setIdx_self]

/-- C9: when a read or write store operation hits an existing but
uninitialized (`M == 0`) index, it fails with `IndexNotInitialized` and
the per-index lock stays acquired — the registry entry afterwards is the
original wrapper with the write lock held (for writes; its snapshot is
untouched, so no snapshot write happened) or with the reader count still
incremented (for reads), because the `M == 0` raise precedes the
try/finally that releases the lock. -/
theorem C9_lock_left_acquired (s : KNNStore) (name : String) (ix : Index)
    (data : List (List Int)) (ids : List Int) (vector : List (List Int))
    (k new_ef new_size : Nat) (label : Int)
    (hl : lookupIdx s.indexes name = some ix) (hM : ix.index.M = 0) :
    ((s.add_items name data ids).1 = .error (.knn (.indexNotInitialized name)) ∧
      lookupIdx (s.add_items name data ids).2.indexes name =
        some { ix with writeLocked := true }) ∧
    ((s.set_ef name new_ef).1 = .error (.knn (.indexNotInitialized name)) ∧
      lookupIdx (s.set_ef name new_ef).2.indexes name =
        some { ix with writeLocked := true }) ∧
    ((s.resize_index name new_size).1 = .error (.knn (.indexNotInitialized name)) ∧
      lookupIdx (s.resize_index name new_size).2.indexes name =
        some { ix with writeLocked := true }) ∧
    ((s.delete_item name label).1 = .error (.knn (.indexNotInitialized name)) ∧
      lookupIdx (s.delete_item name label).2.indexes name =
        some { ix with writeLocked := true }) ∧
    ((s.query_index name vector k).1 = .error (.knn (.indexNotInitialized name)) ∧
      lookupIdx (s.query_index name vector k).2.indexes name =
        some { ix with readers := ix.readers + 1 }) ∧
    ((s.count name).1 = .error (.knn (.indexNotInitialized name)) ∧
      lookupIdx (s.count name).2.indexes name =
        some { ix with readers := ix.readers + 1 }) ∧
    ((s.info name).1 = .error (.knn (.indexNotInitialized name)) ∧
      lookupIdx (s.info name).2.indexes name =
        some { ix with readers := ix.readers + 1 }) ∧
    ((s.max_elements name).1 = .error (.knn (.indexNotInitialized name)) ∧
      lookupIdx (s.max_elements name).2.indexes name =
        some { ix with readers := ix.readers + 1 }) ∧
    ((s.get_ef name).1 = .error (.knn (.indexNotInitialized name)) ∧
      lookupIdx (s.get_ef name).2.indexes name =
        some { ix with readers := ix.readers + 1 }) ∧
    ((s.get_ef_construction name).1 = .error (.knn (.indexNotInitialized name)) ∧
      lookupIdx (s.get_ef_construction name).2.indexes name =
        some { ix with readers := ix.readers + 1 }) ∧
    ((s.get_items name ids).1 = .error (.knn (.indexNotInitialized name)) ∧
      lookupIdx (s.get_items name ids).2.indexes name =
        some { ix with readers := ix.readers + 1 }) ∧
    ((s.get_ids name).1 = .error (.knn (.indexNotInitialized name)) ∧
      lookupIdx (s.get_ids name).2.indexes name =
        some { ix with readers := ix.readers + 1 }) :=
  ops_on_uninitialized s name ix data ids vector k new_ef new_size label hl hM

theorem C9_lock_left_acquired_witness :
    (((KNNStore.empty.create_index "a" "l2" 2).2.count "a").1 =
      .error (.knn (.indexNotInitialized "a"))) ∧
    lookupIdx ((KNNStore.empty.create_index "a" "l2" 2).2.count "a").2.indexes
        "a" =
      some { Index.new (HnswIndex.new "l2" 2) with readers := 1 } ∧
    (((KNNStore.empty.create_index "a" "l2" 2).2.set_ef "a" 30).1 =
      .error (.knn (.indexNotInitialized "a"))) ∧
    lookupIdx ((KNNStore.empty.create_index "a" "l2" 2).2.set_ef "a" 30).2.indexes
        "a" =
      some { Index.new (HnswIndex.new "l2" 2) with writeLocked := true } := by
  have h := C9_lock_left_acquired (KNNStore.empty.create_index "a" "l2" 2).2
    "a" (Index.new (HnswIndex.new "l2" 2)) [] [] [] 1 30 5 0
    (by rfl) (by rfl)
  exact ⟨h.2.2.2.2.2.1.1, h.2.2.2.2.2.1.2, h.2.1.1, h.2.1.2⟩

/-- C3: in every run of the store from empty (with positive `M` arguments
to init, as the client default `M = 16` is), a registered index has
`M == 0` exactly when it was never successfully initialized since its
creation; and each of the mutating or querying operations add, query,
resize, delete-item, set-ef, get-items, get-ids, invoked on an existing
index with `M == 0`, fails with `IndexNotInitialized`. -/
theorem C3_M_zero_iff_uninitialized (cmds : List Cmd) (s : KNNStore)
    (name : String) (ix : Index) (data : List (List Int)) (ids : List Int)
    (vector : List (List Int)) (k new_ef new_size : Nat) (label : Int) :
    (initsPositive cmds = true →
      ∀ n jx, lookupIdx (runTrace cmds).store.indexes n = some jx →
        (jx.index.M = 0 ↔ (runTrace cmds).everInit n = false)) ∧
    (lookupIdx s.indexes name = some ix → ix.index.M = 0 →
      (s.add_items name data ids).1 = .error (.knn (.indexNotInitialized name)) ∧
      (s.query_index name vector k).1 = .error (.knn (.indexNotInitialized name)) ∧
      (s.resize_index name new_size).1 = .error (.knn (.indexNotInitialized name)) ∧
      (s.delete_item name label).1 = .error (.knn (.indexNotInitialized name)) ∧
      (s.set_ef name new_ef).1 = .error (.knn (.indexNotInitialized name)) ∧
      (s.get_items name ids).1 = .error (.knn (.indexNotInitialized name)) ∧
      (s.get_ids name).1 = .error (.knn (.indexNotInitialized name))) := by
  constructor
  · intro hp n jx hl
    exact ((runTrace_inv cmds hp).2 n jx hl).1
  · intro hl hM
    have h := ops_on_uninitialized s name ix data ids vector k new_ef
      new_size label hl hM
    exact ⟨h.1.1, h.2.2.2.2.1.1, h.2.2.1.1, h.2.2.2.1.1, h.2.1.1,
      h.2.2.2.2.2.2.2.2.2.2.1.1, h.2.2.2.2.2.2.2.2.2.2.2.1⟩

theorem C3_M_zero_iff_uninitialized_witness :
    (({ index := { space := "l2", dim := 2, M := 16, ef_construction := 200,
                   ef := 10, max_elements := 10, items := [], deleted := [] },
        snap := some { space := "l2", dim := 2, M := 16,
                       ef_construction := 200, ef := 10, max_elements := 10,
                       items := [], deleted := [] },
        writeLocked := false, readers := 0 : Index }).index.M = 0 ↔
      (runTrace [Cmd.createIndex "a" "l2" 2,
                 Cmd.initIndex "a" 10 200 16]).everInit "a" = false) ∧
    ((KNNStore.empty.create_index "b" "l2" 2).2.add_items "b" [] []).1 =
      .error (.knn (.indexNotInitialized "b")) := by
  have h := C3_M_zero_iff_uninitialized
    [Cmd.createIndex "a" "l2" 2, Cmd.initIndex "a" 10 200 16]
    (KNNStore.empty.create_index "b" "l2" 2).2 "b"
    (Index.new (HnswIndex.new "l2" 2)) [] [] [] 1 1 1 0
  exact ⟨h.1 (by decide) "a" _ (by rfl), (h.2 (by rfl) (by rfl)).1⟩

/-- C6: over every run from the empty store, a registered index's element
count equals the total number of rows successfully added to it since its
creation; a single executed command never decreases the element count of
an index that stays registered (monotone non-decreasing until deletion);
and a successful `delete_item` changes neither the element count nor
`max_elements`. -/
theorem C6_element_count_accounting (cmds : List Cmd) (s : KNNStore)
    (c : Cmd) (n name : String) (ix ix' : Index) (label : Int) :
    (initsPositive cmds = true →
      ∀ m jx, lookupIdx (runTrace cmds).store.indexes m = some jx →
        jx.index.get_current_count = (runTrace cmds).addedRows m) ∧
    ((s.indexes.map Prod.fst).Nodup →
      lookupIdx s.indexes n = some ix →
      lookupIdx (executeCommand c s).2.indexes n = some ix' →
      ix.index.get_current_count ≤ ix'.index.get_current_count) ∧
    ((s.delete_item name label).1 = .ok () →
      ∃ jx jx', lookupIdx s.indexes name = some jx ∧
        lookupIdx (s.delete_item name label).2.indexes name = some jx' ∧
        jx'.index.get_current_count = jx.index.get_current_count ∧
        jx'.index.get_max_elements = jx.index.get_max_elements) := by
  refine ⟨fun hp m jx hl => ((runTrace_inv cmds hp).2 m jx hl).2,
          fun hnd h1 h2 => step_count_mono s c n ix ix' hnd h1 h2,
          fun hok => ?_⟩
  have hok' : (withWrite s name
      (fun h => (h.mark_deleted label).map (fun h' => ((), h')))).1 =
        .ok () := hok
  obtain ⟨jx, h', hl, hM, hb, hpost⟩ := withWrite_ok_inv s name _ () hok'
  obtain ⟨-, hitems, hmax⟩ := mark_deleted_effect _ label _ (map_unit_pair_ok hb)
  refine ⟨jx, { index := h', snap := some h', writeLocked := false,
                readers := jx.readers }, hl, hpost, ?_, ?_⟩
  · simp [HnswIndex.get_current_count, hitems]
  · simp [HnswIndex.get_max_elements, hmax]

theorem C6_element_count_accounting_witness :
    (({ index := { space := "l2", dim := 2, M := 16, ef_construction := 200,
                   ef := 10, max_elements := 10,
                   items := [(5, [1, 2]), (6, [3, 4])], deleted := [] },
        snap := some { space := "l2", dim := 2, M := 16,
                       ef_construction := 200, ef := 10, max_elements := 10,
                       items := [(5, [1, 2]), (6, [3, 4])], deleted := [] },
        writeLocked := false, readers := 0 : Index }).index.get_current_count =
      (runTrace [Cmd.createIndex "a" "l2" 2, Cmd.initIndex "a" 10 200 16,
                 Cmd.addItems "a" [[1, 2], [3, 4]] [5, 6]]).addedRows "a") ∧
    (({ index := { space := "l2", dim := 2, M := 16, ef_construction := 200,
                   ef := 10, max_elements := 10, items := [],
                   deleted := [] },
        snap := some { space := "l2", dim := 2, M := 16,
                       ef_construction := 200, ef := 10, max_elements := 10,
                       items := [], deleted := [] },
        writeLocked := false, readers := 0 : Index }).index.get_current_count ≤
      ({ index := { space := "l2", dim := 2, M := 16, ef_construction := 200,
                    ef := 10, max_elements := 10, items := [(7, [1, 2])],
                    deleted := [] },
         snap := some { space := "l2", dim := 2, M := 16,
                        ef_construction := 200, ef := 10, max_elements := 10,
                        items := [(7, [1, 2])], deleted := [] },
         writeLocked := false, readers := 0 : Index }).index.get_current_count) ∧
    (∃ jx jx',
      lookupIdx (runTrace [Cmd.createIndex "a" "l2" 2,
        Cmd.initIndex "a" 10 200 16,
        Cmd.addItems "a" [[1, 2], [3, 4]] [5, 6]]).store.indexes "a" = some jx ∧
      lookupIdx ((runTrace [Cmd.createIndex "a" "l2" 2,
        Cmd.initIndex "a" 10 200 16,
        Cmd.addItems "a" [[1, 2], [3, 4]] [5, 6]]).store.delete_item
          "a" 5).2.indexes "a" = some jx' ∧
      jx'.index.get_current_count = jx.index.get_current_count ∧
      jx'.index.get_max_elements = jx.index.get_max_elements) := by
  have h1 := (C6_element_count_accounting
    [Cmd.createIndex "a" "l2" 2, Cmd.initIndex "a" 10 200 16,
     Cmd.addItems "a" [[1, 2], [3, 4]] [5, 6]]
    KNNStore.empty (Cmd.connect []) "a" "a"
    (Index.new (HnswIndex.new "l2" 2)) (Index.new (HnswIndex.new "l2" 2))
    0).1 (by decide) "a" _ (by rfl)
  have h2 := (C6_element_count_accounting
    [] ((KNNStore.empty.create_index "a" "l2" 2).2.init_index "a" 10 200 16).2
    (Cmd.addItems "a" [[1, 2]] [7]) "a" "a" _ _ 0).2.1
    (by decide) (by rfl) (by rfl)
  have h3 := (C6_element_count_accounting
    [] (runTrace [Cmd.createIndex "a" "l2" 2, Cmd.initIndex "a" 10 200 16,
        Cmd.addItems "a" [[1, 2], [3, 4]] [5, 6]]).store
    (Cmd.connect []) "a" "a" (Index.new (HnswIndex.new "l2" 2))
    (Index.new (HnswIndex.new "l2" 2)) 5).2.2 (by rfl)
  exact ⟨h1, h2, h3⟩

/-- C7 counterexample: immediately after a successful
`create_index("a", "l2", 12)` the index is still uninitialized
(`M == 0`), so `info` does not succeed — it fails with
`IndexNotInitialized`. -/
theorem C7_counterexample_info_after_create :
    ((KNNStore.empty.create_index "a" "l2" 12).2.info "a").1 =
      .error (.knn (.indexNotInitialized "a")) := by rfl

/-- C7 amended: after a successful `create_index(name, space, dim)`
followed by a successful `init_index` (with a positive `M`, as the client
default 16 is), the `info` operation on the name succeeds and its record
reports exactly that space and that dim. -/
theorem C7_info_reports_space_dim (s : KNNStore) (name space : String)
    (dim me ec M : Nat)
    (hsp : space ∈ ALLOWED_SPACES) (hfresh : lookupIdx s.indexes name = none)
    (hM : 1 ≤ M) :
    (((s.create_index name space dim).2.init_index name me ec M).1 = .ok ()) ∧
    ∃ rec : InfoRecord,
      (((s.create_index name space dim).2.init_index name me ec M).2.info
          name).1 = .ok rec ∧ rec.space = space ∧ rec.dim = dim := by
  have heqc := (create_index_spec s name space dim).2.2 (by simpa using hsp)
    hfresh
  have hl1 : lookupIdx (s.create_index name space dim).2.indexes name =
      some (Index.new (HnswIndex.new space dim)) := by
    rw [heqc]
    exact lookupIdx_setIdx_self _ _ _
  have hb : (fun h => (h.init_index me ec M).map (fun h' => ((), h')))
      (Index.new (HnswIndex.new space dim)).index =
        .ok ((), { space := space, dim := dim, M := M,
                   ef_construction := ec, ef := 10, max_elements := me,
                   items := [], deleted := [] }) := by
    simp [Index.new, HnswIndex.new, HnswIndex.init_index, Except.map]
  have heqi := withInit_body_ok (s.create_index name space dim).2 name
    (fun h => (h.init_index me ec M).map (fun h' => ((), h')))
    (Index.new (HnswIndex.new space dim)) ()
    { space := space, dim := dim, M := M, ef_construction := ec, ef := 10,
      max_elements := me, items := [], deleted := [] } hl1 hb
  constructor
  · show (withInit (s.create_index name space dim).2 name
      (fun h => (h.init_index me ec M).map (fun h' => ((), h')))).1 = .ok ()
    rw [heqi]
  · have hl2 : lookupIdx ((s.create_index name space dim).2.init_index
        name me ec M).2.indexes name =
      some { index := { space := space, dim := dim, M := M,
                        ef_construction := ec, ef := 10, max_elements := me,
                        items := [], deleted := [] },
             snap := some { space := space, dim := dim, M := M,
                            ef_construction := ec, ef := 10,
                            max_elements := me, items := [], deleted := [] },
             writeLocked := false,
             readers := (Index.new (HnswIndex.new space dim)).readers } := by
      show lookupIdx (withInit (s.create_index name space dim).2 name
        (fun h => (h.init_index me ec M).map (fun h' => ((), h')))).2.indexes
          name = _
      rw [heqi]
      exact lookupIdx_setIdx_self _ _ _
    have hM' : ¬ ({ space := space, dim := dim, M := M,
                    ef_construction := ec, ef := 10, max_elements := me,
                    items := [], deleted := [] } : HnswIndex).M = 0 := by
      simp
      omega
    refine ⟨{ space := space, dim := dim, M := M, ef_construction := ec,
              max_elements := me, element_count := 0, ef := 10 }, ?_, rfl, rfl⟩
    show (withRead ((s.create_index name space dim).2.init_index
        name me ec M).2 name
      (fun h => (.ok { space := h.space, dim := h.dim, M := h.M,
                       ef_construction := h.ef_construction,
                       max_elements := h.get_max_elements,
                       element_count := h.get_current_count,
                       ef := h.ef } : Except PyExc InfoRecord))).1 = _
    rw [withRead_body _ _ _ _ hl2 hM']
    rfl

theorem C7_info_reports_space_dim_witness :
    (((KNNStore.empty.create_index "a" "l2" 12).2.init_index
        "a" 100 140 12).1 = .ok ()) ∧
    ∃ rec : InfoRecord,
      (((KNNStore.empty.create_index "a" "l2" 12).2.init_index
          "a" 100 140 12).2.info "a").1 = .ok rec ∧
      rec.space = "l2" ∧ rec.dim = 12 :=
  C7_info_reports_space_dim KNNStore.empty "a" "l2" 12 100 140 12
    (by decide) (by rfl) (by decide)

/-- C8: a frame that fails authentication makes the server send the close
sentinel, close the connection and return no result for that frame; and a
client whose secret differs from the server's cannot complete the Connect
handshake — it ends in the runtime error about the secret. -/
theorem C8_invalid_token_tears_down (s1 s2 : String) (token : List Nat)
    (now : Nat) (store : KNNStore) (frame : FernetToken) (e : CryptoErr) :
    (fernetDecrypt frame (gen_key s1) FERNET_TTL now = .error e →
      (serverHandleFrame frame (gen_key s1) now store).resultSent = none ∧
      (serverHandleFrame frame (gen_key s1) now store).sentCloseSentinel = true ∧
      (serverHandleFrame frame (gen_key s1) now store).closedConnection = true) ∧
    (s2 ≠ s1 → token ≠ [] →
      clientConnect s2 s1 token now store =
        .error (.runtimeError
          "Connection failed, make sure your secret is correct")) := by
  constructor
  · intro h
    unfold serverHandleFrame
    rw [h]
    exact ⟨rfl, rfl, rfl⟩
  · intro hne htok
    have hk : ¬ gen_key s2 = gen_key s1 := by
      simp only [gen_key, FernetKey.mk.injEq]
      exact hne
    have hbeq : (token == ([] : List Nat)) = false := by
      cases token with
      | nil => exact absurd rfl htok
      | cons a t => rfl
    simp [clientConnect, serverHandleFrame, fernetDecrypt, pack_obj,
      receive_result, receive_obj, Result.get_value, compare_digest,
      hk, hbeq]

theorem C8_invalid_token_tears_down_witness :
    ((serverHandleFrame (pack_obj (.cmd (.connect [1, 2])) (gen_key "s2") 0)
        (gen_key "s1") 0 KNNStore.empty).resultSent = none ∧
      (serverHandleFrame (pack_obj (.cmd (.connect [1, 2])) (gen_key "s2") 0)
        (gen_key "s1") 0 KNNStore.empty).sentCloseSentinel = true ∧
      (serverHandleFrame (pack_obj (.cmd (.connect [1, 2])) (gen_key "s2") 0)
        (gen_key "s1") 0 KNNStore.empty).closedConnection = true) ∧
    clientConnect "s2" "s1" [1, 2] 0 KNNStore.empty =
      .error (.runtimeError
        "Connection failed, make sure your secret is correct") := by
  have h := C8_invalid_token_tears_down "s1" "s2" [1, 2] 0 KNNStore.empty
    (pack_obj (.cmd (.connect [1, 2])) (gen_key "s2") 0) .invalidToken
  exact ⟨h.1 (by decide), h.2 (by decide) (by decide)⟩

/-- C5: every sent frame is the 8-byte big-endian unsigned length
followed by exactly that many payload bytes; the receiver reads exactly 8
length bytes and, on a zero length, returns end-of-stream without
touching the payload bytes; a nonempty sent frame round-trips, consuming
exactly the frame; and the close-sending side writes the zero length and
then closes the transport. -/
theorem C5_frame_layout (payload rest : List Nat)
    (hlen : payload.length < 2 ^ 64) (hne : payload ≠ []) :
    send_obj_bytes payload = toBytesBE 8 payload.length ++ payload ∧
    (toBytesBE 8 payload.length).length = 8 ∧
    receive_frame (send_obj_bytes payload ++ rest) = .payload payload rest ∧
    receive_frame (send_close_bytes.1 ++ rest) = .closeSentinel rest ∧
    send_close_bytes = (toBytesBE 8 0, true) := by
  have h8 : (toBytesBE 8 payload.length).length = 8 := toBytesBE_length 8 _
  have hval : fromBytesBE (toBytesBE 8 payload.length) = payload.length := by
    refine fromBytesBE_toBytesBE 8 _ ?_
    rw [show (256:Nat) ^ 8 = 2 ^ 64 by norm_num]
    exact hlen
  refine ⟨rfl, h8, ?_, ?_, rfl⟩
  · have hlt : ¬ (toBytesBE 8 payload.length ++ (payload ++ rest)).length < 8 := by
      simp [h8]
    have hT := List.take_left (toBytesBE 8 payload.length) (payload ++ rest)
    rw [h8] at hT
    have hD := List.drop_left (toBytesBE 8 payload.length) (payload ++ rest)
    rw [h8] at hD
    have hlen0 : ¬ payload.length = 0 := by
      intro hc
      exact hne (List.length_eq_zero.mp hc)
    have hcap : ¬ (payload ++ rest).length < payload.length := by
      simp [List.length_append]
    have hTP := List.take_left payload rest
    have hDP := List.drop_left payload rest
    show receive_frame (toBytesBE INT_LENGTH payload.length ++ payload ++ rest)
      = _
    rw [List.append_assoc]
    simp only [receive_frame, INT_LENGTH]
    rw [hT, hD, hval]
    rw [if_neg hlt, if_neg hlen0, if_neg hcap, hTP, hDP]
  · have h80 : (toBytesBE 8 0).length = 8 := toBytesBE_length 8 0
    have hlt : ¬ (toBytesBE 8 0 ++ rest).length < 8 := by
      simp [h80]
    have hT := List.take_left (toBytesBE 8 0) rest
    rw [h80] at hT
    have hD := List.drop_left (toBytesBE 8 0) rest
    rw [h80] at hD
    have hval0 : fromBytesBE (toBytesBE 8 0) = 0 :=
      fromBytesBE_toBytesBE 8 0 (Nat.pos_pow_of_pos 8 (by norm_num))
    show receive_frame (toBytesBE INT_LENGTH 0 ++ rest) = _
    simp only [receive_frame, INT_LENGTH]
    rw [hT, hD, hval0]
    rw [if_neg hlt, if_pos rfl]

theorem C5_frame_layout_witness :
    send_obj_bytes [7, 7, 7] = toBytesBE 8 3 ++ [7, 7, 7] ∧
    (toBytesBE 8 3).length = 8 ∧
    receive_frame (send_obj_bytes [7, 7, 7] ++ [9, 9]) =
      .payload [7, 7, 7] [9, 9] ∧
    receive_frame (send_close_bytes.1 ++ [9, 9]) = .closeSentinel [9, 9] ∧
    send_close_bytes = (toBytesBE 8 0, true) := by
  have h := C5_frame_layout [7, 7, 7] [9, 9] (by decide) (by decide)
  exact ⟨h.1, h.2.1, h.2.2.1, h.2.2.2.1, h.2.2.2.2⟩

end LuxDB
